import Mathlib

/-!
# Verification of the just-media reconciliation/ingestion pipeline

Shallow embedding of the core of the repository:

* `catalog/services/media_item_processor.py` — `MediaItemProcessor`
  (identity resolution and upsert logic over `MediaItem` rows),
* `catalog/services/kodik_mapper.py` — `map_kodik_item_to_models`
  (payload normalisation of raw Kodik JSON items),
* `catalog/management/commands/update_translations.py` — the
  season/episode/screenshot/link synchronisation loop of
  `Command._process_media_item`.

The persistent store (Django ORM) is modelled as explicit state:
`MediaItem` rows, the per-(item, source) metadata rows for the single
Kodik source, and the `Genre`/`Country` dictionary tables.  Timestamps
are `Int` (only their ordering matters to the code).  Machine-level
concerns (SQL, connections) are out of scope; the conditional unique
constraints of `MediaItem` are modelled as the save-time checks the
database performs, an offending save raising `IntegrityError`, which
`process_api_item` converts to an error status with the transaction
rolled back.
-/

namespace JustMedia

/-- The four external-id columns of `MediaItem`
(`MediaItemProcessor.id_fields` in `media_item_processor.py`). -/
inductive IdField where
  | kp | imdb | shiki | mdl
deriving DecidableEq, Repr

/-- `self.id_fields = ['kinopoisk_id', 'imdb_id', 'shikimori_id', 'mydramalist_id']`. -/
def idFields : List IdField := [.kp, .imdb, .shiki, .mdl]

/-- A `MediaItem` row (`catalog/models.py`).  `pk` is the primary key;
the four external ids are nullable strings, unique when non-null.
`genres`/`countries` hold the names of the related `Genre`/`Country`
rows (names are unique, so a set of names stands for the M2M set). -/
structure Item where
  pk : Nat
  title : String
  original_title : Option String
  media_type : String
  release_year : Option Int
  description : Option String
  poster_url : Option String
  kinopoisk_id : Option String
  imdb_id : Option String
  shikimori_id : Option String
  mydramalist_id : Option String
  genres : List String
  countries : List String
deriving DecidableEq, Repr

def Item.getId (i : Item) : IdField → Option String
  | .kp => i.kinopoisk_id
  | .imdb => i.imdb_id
  | .shiki => i.shikimori_id
  | .mdl => i.mydramalist_id

/-- The `media_item_data` dict a normalized record carries
(`mapped_data['media_item_data']` built by the Kodik mapper): a partial
map over the `MediaItem` columns.  `none` = the key is absent from the
dict (the mapper drops `None` values, so a present key has a value). -/
structure ItemData where
  title : Option String := none
  original_title : Option String := none
  media_type : Option String := none
  release_year : Option Int := none
  description : Option String := none
  poster_url : Option String := none
  kinopoisk_id : Option String := none
  imdb_id : Option String := none
  shikimori_id : Option String := none
  mydramalist_id : Option String := none
deriving DecidableEq, Repr

def ItemData.getId (d : ItemData) : IdField → Option String
  | .kp => d.kinopoisk_id
  | .imdb => d.imdb_id
  | .shiki => d.shikimori_id
  | .mdl => d.mydramalist_id

/-- A normalized record as `process_api_item` consumes it:
`media_item_data`, `genres`, `countries` of the mapper's output. -/
structure MappedData where
  media_item_data : ItemData
  genres : List String
  countries : List String
deriving DecidableEq, Repr

/-- The persistent store: `MediaItem` rows, the `MediaItemSourceMetadata`
rows for the Kodik source (`(media_item pk, source_last_updated_at)`),
and the `Genre`/`Country` name tables.  `nextPk` is the next key the
database would assign. -/
structure Store where
  items : List Item
  nextPk : Nat
  meta : List (Nat × Option Int)
  genreTable : List String
  countryTable : List String
deriving DecidableEq, Repr

/-- Processor configuration (`MediaItemProcessor.__init__`): the
`fill_empty_fields` flag.  The source handle and verbosity do not
affect the store semantics. -/
structure Config where
  fill_empty_fields : Bool
deriving DecidableEq, Repr

/-- Python truthiness of a nullable string column value:
`None` and `''` are falsy. -/
def oStrTruthy : Option String → Bool
  | some s => s != ""
  | none => false

/-- Python truthiness of a nullable integer column value. -/
def oIntTruthy : Option Int → Bool
  | some n => n != 0
  | none => false

/-- Python `str.strip()` (drop surrounding whitespace), written over the
character list so that it evaluates inside proofs. -/
def pyTrim (s : String) : String :=
  ((s.data.dropWhile Char.isWhitespace).reverse.dropWhile Char.isWhitespace).reverse.asString

/-- Python `str.lower()`. -/
def pyLower (s : String) : String :=
  (s.data.map Char.toLower).asString

def chPrefix : List Char → List Char → Bool
  | [], _ => true
  | _ :: _, [] => false
  | p :: ps, c :: cs => p == c && chPrefix ps cs

/-- Python `str.startswith(pre)`. -/
def pyStartsWith (s pre : String) : Bool := chPrefix pre.data s.data

def chListLt : List Char → List Char → Bool
  | [], [] => false
  | [], _ :: _ => true
  | _ :: _, [] => false
  | a :: as, b :: bs => if a < b then true else if b < a then false else chListLt as bs

/-- Python `<` on strings: lexicographic by code point. -/
def pyStrLt (a b : String) : Bool := chListLt a.data b.data

/-! ## Identity resolution (`_find_exact_match`, `_find_subset_match`) -/

/-- The conjunctive filter of `_build_exact_match_query`: for each id
field, a `None` API value requires the stored field to be null,
otherwise equality. -/
def exact_match_pred (d : ItemData) (i : Item) : Bool :=
  idFields.all fun f => i.getId f == d.getId f

/-- Outcome of `MediaItem.objects.get(query)`: the row, `DoesNotExist`,
or `MultipleObjectsReturned`. -/
inductive Lookup where
  | found (i : Item)
  | missing
  | multiple
deriving DecidableEq, Repr

/-- `_find_exact_match`: `get` on the exact query; more than one match
raises (`MediaItemProcessorError("Multiple exact matches found")`). -/
def find_exact_match (st : Store) (d : ItemData) : Lookup :=
  match st.items.filter (exact_match_pred d) with
  | [] => .missing
  | [i] => .found i
  | _ :: _ :: _ => .multiple

/-- Membership of a field in `api_non_empty_ids`
(`{k: v for k, v in api_ids.items() if v}`). -/
def apiNonEmpty (d : ItemData) (f : IdField) : Bool := oStrTruthy (d.getId f)

/-- `if not api_non_empty_ids` — the record carries at least one truthy id. -/
def anyApiId (d : ItemData) : Bool := idFields.any (apiNonEmpty d)

/-- The candidate queryset filter of `_find_subset_match`: share at
least one non-empty API id, and for every non-empty API id the stored
field is null or equal (no conflicting id). -/
def candidate_pred (d : ItemData) (i : Item) : Bool :=
  (idFields.any fun f => apiNonEmpty d f && (i.getId f == d.getId f)) &&
  (idFields.all fun f => !apiNonEmpty d f || (i.getId f == (none : Option String)) || (i.getId f == d.getId f))

/-- `item_non_empty_ids` is non-empty (`if not item_non_empty_ids: continue`). -/
def hasNonEmptyIds (i : Item) : Bool := idFields.any fun f => oStrTruthy (i.getId f)

/-- `is_subset`: every non-empty id of the candidate is present and
equal in `api_non_empty_ids`. -/
def is_subset_pred (d : ItemData) (i : Item) : Bool :=
  idFields.all fun f => !oStrTruthy (i.getId f) || (apiNonEmpty d f && (d.getId f == i.getId f))

/-- `api_has_new_id`: the record brings at least one non-empty id the
candidate lacks. -/
def api_has_new_id (d : ItemData) (i : Item) : Bool :=
  idFields.any fun f => apiNonEmpty d f && !oStrTruthy (i.getId f)

/-- A candidate that survives the three `continue` checks of the
`_find_subset_match` loop. -/
def valid_subset_cand (d : ItemData) (i : Item) : Bool :=
  hasNonEmptyIds i && is_subset_pred d i && api_has_new_id d i

/-- The priority computation of `_find_subset_match`
(media_item_processor.py lines 108–111): 1 when the candidate itself
holds kinopoisk/imdb, else −1 when the API record brings kinopoisk/imdb
(downgrade), else 0. -/
def subset_priority (d : ItemData) (i : Item) : Int :=
  if oStrTruthy i.kinopoisk_id || oStrTruthy i.imdb_id then 1
  else if oStrTruthy d.kinopoisk_id || oStrTruthy d.imdb_id then -1
  else 0

/-- The same selection implemented in
`parse_kodik.py Command._find_subset_match` (lines 150–169), written as
the chained `if`/`elif` of that file. -/
def parse_kodik_priority (d : ItemData) (i : Item) : Int :=
  if oStrTruthy i.kinopoisk_id || oStrTruthy i.imdb_id then 1
  else if oStrTruthy i.shikimori_id || oStrTruthy i.mydramalist_id then
    if !(oStrTruthy d.kinopoisk_id || oStrTruthy d.imdb_id) then 0 else -1
  else -1

/-- The scan of the candidate list: `best_match`/`highest_priority_found`
accumulator, a candidate replaces the current best only with a strictly
greater priority. -/
def subset_loop (d : ItemData) : List Item → Option Item × Int → Option Item × Int
  | [], acc => acc
  | i :: rest, acc =>
    if valid_subset_cand d i then
      if subset_priority d i > acc.2 then subset_loop d rest (some i, subset_priority d i)
      else subset_loop d rest acc
    else subset_loop d rest acc

/-- `_find_subset_match`. -/
def find_subset_match (st : Store) (d : ItemData) : Option Item :=
  if !anyApiId d then none
  else
    let cs := st.items.filter (candidate_pred d)
    if cs.isEmpty then none
    else (subset_loop d cs (none, -1)).1

/-! ## M2M convergence (`_get_or_create_m2m`, `_update_m2m_relations`) -/

/-- `set.add` on a list standing for a Python set. -/
def addIfAbsent (l : List String) (x : String) : List String :=
  if l.contains x then l else l ++ [x]

/-- The create-missing loop of `_get_or_create_m2m`: for each valid name
whose lowercase is not a key of `existing_map`, `get_or_create` with
`name__iexact` (first case-insensitive match of the evolving table, else
create with the original casing).  Returns (table, target set). -/
def m2m_create_loop (exmLowers : List String) :
    List String → List String → List String → List String × List String
  | [], table, target => (table, target)
  | n :: rest, table, target =>
    if exmLowers.contains (pyLower n) then m2m_create_loop exmLowers rest table target
    else
      match table.find? (fun g => pyLower g == pyLower n) with
      | some g => m2m_create_loop exmLowers rest table (addIfAbsent target g)
      | none => m2m_create_loop exmLowers rest (table ++ [n]) (addIfAbsent target n)

/-- `_get_or_create_m2m`: trim names, drop empties, bulk-match existing
rows exactly (`name__in`), key them by lowercase (later rows overwrite
earlier on the same key, as the dict comprehension does), then
get-or-create the rest case-insensitively.  Returns the updated table
and the target object set (as names). -/
def get_or_create_m2m (table : List String) (names : List String) :
    List String × List String :=
  let valid := (names.map pyTrim).filter (fun s => s != "")
  if valid.isEmpty then (table, [])
  else
    let existing := table.filter (fun g => valid.contains g)
    let exm := existing.foldl
      (fun m g => m.filter (fun p => p.1 != pyLower g) ++ [(pyLower g, g)])
      ([] : List (String × String))
    m2m_create_loop (exm.map (·.1)) valid table (exm.map (·.2))

/-- Python set equality of two name sets held as lists. -/
def setEqb (a b : List String) : Bool :=
  a.all (fun x => b.contains x) && b.all (fun x => a.contains x)

/-- Persist a row: every stored row with the same pk becomes `i'`. -/
def replace_item (l : List Item) (i' : Item) : List Item :=
  l.map fun j => if j.pk = i'.pk then i' else j

/-- `_update_m2m_relations`: compute each target set, `set`-replace the
relation only when it differs from the current set, report whether
anything changed. -/
def update_m2m_relations (st : Store) (item : Item) (gnames cnames : List String) :
    Store × Item × Bool :=
  let gr := get_or_create_m2m st.genreTable gnames
  let gChanged := !setEqb item.genres gr.2
  let item1 := if gChanged then { item with genres := gr.2 } else item
  let cr := get_or_create_m2m st.countryTable cnames
  let cChanged := !setEqb item1.countries cr.2
  let item2 := if cChanged then { item1 with countries := cr.2 } else item1
  ({ st with genreTable := gr.1, countryTable := cr.1,
             items := replace_item st.items item2 },
   item2, gChanged || cChanged)

/-! ## Source metadata (`MediaItemSourceMetadata`) -/

/-- Look up the metadata row for (item pk, Kodik source). -/
def meta_find (st : Store) (pk : Nat) : Option (Option Int) :=
  (st.meta.find? (fun p => p.1 == pk)).map (·.2)

/-- Save `source_last_updated_at` on the row of `pk`. -/
def meta_set (st : Store) (pk : Nat) (v : Option Int) : Store :=
  { st with meta := st.meta.map fun p => if p.1 = pk then (p.1, v) else p }

/-- `MediaItemSourceMetadata.objects.get_or_create(media_item, source,
defaults)`: (store, the row's `source_last_updated_at`, created?). -/
def meta_get_or_create (st : Store) (pk : Nat) (dflt : Option Int) :
    Store × Option Int × Bool :=
  match meta_find st pk with
  | some v => (st, v, false)
  | none => ({ st with meta := st.meta ++ [(pk, dflt)] }, dflt, true)

/-- `_update_metadata`: get-or-create with the API time as default; when
the row pre-existed and its time differs (or the outer scope just
created it), save the API time. -/
def update_metadata (st : Store) (pk : Nat) (t : Int) (meta_created : Bool) : Store :=
  let r := meta_get_or_create st pk (some t)
  if !r.2.2 && (r.2.1 != some t || meta_created) then meta_set r.1 pk (some t)
  else r.1

/-! ## The upsert (`_update_item`, `_create_item`, `process_api_item`) -/

/-- `value if present else keep` — one `setattr` from the fields dict. -/
def ov {α : Type} (cur v : Option α) : Option α :=
  match v with
  | some x => some x
  | none => cur

/-- Applying `defaults_for_update` (the record minus the id keys) to an
exact-match row: `setattr` per present key. -/
def exact_apply (i : Item) (d : ItemData) : Item :=
  { i with
    title := d.title.getD i.title,
    original_title := ov i.original_title d.original_title,
    media_type := d.media_type.getD i.media_type,
    release_year := ov i.release_year d.release_year,
    description := ov i.description d.description,
    poster_url := ov i.poster_url d.poster_url }

/-- `defaults_for_update` is non-empty: some non-id key is present. -/
def nonIdPresent (d : ItemData) : Bool :=
  d.title.isSome || d.original_title.isSome || d.media_type.isSome ||
  d.release_year.isSome || d.description.isSome || d.poster_url.isSome

/-- `fields_to_update` (any key) is non-empty. -/
def anyPresent (d : ItemData) : Bool :=
  nonIdPresent d || d.kinopoisk_id.isSome || d.imdb_id.isSome ||
  d.shikimori_id.isSome || d.mydramalist_id.isSome

/-- The subset-match branch of `_update_item`: start from the whole
record, then force every api id whose value differs from the stored one;
net effect on the id columns is `api_ids` itself. -/
def subset_apply (i : Item) (d : ItemData) : Item :=
  { i with
    title := d.title.getD i.title,
    original_title := ov i.original_title d.original_title,
    media_type := d.media_type.getD i.media_type,
    release_year := ov i.release_year d.release_year,
    description := ov i.description d.description,
    poster_url := ov i.poster_url d.poster_url,
    kinopoisk_id := d.kinopoisk_id,
    imdb_id := d.imdb_id,
    shikimori_id := d.shikimori_id,
    mydramalist_id := d.mydramalist_id }

/-- `fields_to_update` of the subset branch is non-empty: the record has
a present key, or some api id differs from the stored one. -/
def subset_has_fields (i : Item) (d : ItemData) : Bool :=
  anyPresent d || idFields.any (fun f => d.getId f != i.getId f)

/-- Falsiness of the stored value in the fill-empty check
(`not getattr(media_item, field, None)`). -/
def strFalsy (s : String) : Bool := s == ""

def oStrFalsy : Option String → Bool
  | none => true
  | some s => s == ""

def oIntFalsy : Option Int → Bool
  | none => true
  | some n => n == 0

/-- One field of the fill-empty loop: the incoming value when the key is
present, the stored value falsy and the incoming value truthy. -/
def fillS (cur : String) (v : Option String) : Option String :=
  match v with
  | some x => if strFalsy cur && x != "" then some x else none
  | none => none

def fillOS (cur : Option String) (v : Option String) : Option String :=
  match v with
  | some x => if oStrFalsy cur && x != "" then some x else none
  | none => none

def fillOI (cur : Option Int) (v : Option Int) : Option Int :=
  match v with
  | some x => if oIntFalsy cur && x != 0 then some x else none
  | none => none

/-- The `fields_to_update` dict collected by the fill-empty branch of
`_update_item` (lines 224–231): only non-id keys are candidates since the
loop runs over `defaults_for_update`. -/
def fills_of (i : Item) (d : ItemData) : ItemData :=
  { title := fillS i.title d.title,
    original_title := fillOS i.original_title d.original_title,
    media_type := fillS i.media_type d.media_type,
    release_year := fillOI i.release_year d.release_year,
    description := fillOS i.description d.description,
    poster_url := fillOS i.poster_url d.poster_url }

/-- Apply the fill-empty fields dict. -/
def apply_fills (i : Item) (fl : ItemData) : Item :=
  { i with
    title := fl.title.getD i.title,
    original_title := ov i.original_title fl.original_title,
    media_type := fl.media_type.getD i.media_type,
    release_year := ov i.release_year fl.release_year,
    description := ov i.description fl.description,
    poster_url := ov i.poster_url fl.poster_url }

/-- The database's conditional unique constraints
(`MediaItem.Meta.constraints`): saving `i'` succeeds iff no other row
(different pk) holds the same non-null value in the same id column. -/
def ids_unique_against (l : List Item) (i' : Item) : Bool :=
  idFields.all fun f =>
    match i'.getId f with
    | none => true
    | some v => l.all fun o => o.pk == i'.pk || o.getId f != some v

/-- The `should_update` decision of `_update_item` (lines 203–207):
metadata just created, no stored timestamp, or strictly newer source
timestamp. -/
def ui_should_update (meta_created : Bool) (mval : Option Int) (t : Int) : Bool :=
  meta_created || (match mval with | none => true | some T => decide (t > T))

/-- The row value `_update_item` saves: subset merge, full exact apply,
fill-empty apply, or the row unchanged (lines 209–231). -/
def ui_item1 (cfg : Config) (item : Item) (d : ItemData) (su is_subset : Bool) : Item :=
  if is_subset then subset_apply item d
  else if su then exact_apply item d
  else if cfg.fill_empty_fields then apply_fills item (fills_of item d)
  else item

/-- Whether the `fields_to_update` dict of the corresponding branch is
non-empty. -/
def ui_has_fields (cfg : Config) (item : Item) (d : ItemData) (su is_subset : Bool) : Bool :=
  if is_subset then subset_has_fields item d
  else if su then nonIdPresent d
  else if cfg.fill_empty_fields then anyPresent (fills_of item d)
  else false

/-- `_update_item`.  `none` models the raised `MediaItemProcessorError`
(the save hit `IntegrityError`); the caller rolls the transaction back. -/
def update_item (cfg : Config) (st : Store) (item : Item) (d : ItemData)
    (gnames cnames : List String) (t : Int) (is_subset : Bool) :
    Option (Store × String) :=
  let mg := meta_get_or_create st item.pk none
  let st1 := mg.1
  let meta_created := mg.2.2
  let should_update := ui_should_update meta_created mg.2.1 t
  let item1 := ui_item1 cfg item d should_update is_subset
  let has_fields := ui_has_fields cfg item d should_update is_subset
  let should_main := is_subset || should_update
  if has_fields || should_main then
    if has_fields && !ids_unique_against st1.items item1 then none
    else
      let st2 := if has_fields then { st1 with items := replace_item st1.items item1 } else st1
      let action1 := if has_fields then "updated" else "skipped"
      let mr :=
        if should_main then update_m2m_relations st2 item1 gnames cnames
        else (st2, item1, false)
      let st3 := mr.1
      let m2m_changed := mr.2.2
      let action2 := if should_main && m2m_changed then "updated" else action1
      let st4 := if should_main then update_metadata st3 item.pk t meta_created else st3
      let action3 :=
        if action2 == "skipped" && m2m_changed then "updated"
        else if !has_fields && !m2m_changed && should_main then "skipped"
        else action2
      some (st4, action3)
  else some (st1, "skipped")

/-- `MediaItem.objects.create(**media_item_data)`: absent keys take the
model defaults (`''` for the non-null `title`, `UNKNOWN` for
`media_type`, null elsewhere). -/
def item_from_data (pk : Nat) (d : ItemData) : Item :=
  { pk := pk,
    title := d.title.getD "",
    original_title := d.original_title,
    media_type := d.media_type.getD "unknown",
    release_year := d.release_year,
    description := d.description,
    poster_url := d.poster_url,
    kinopoisk_id := d.kinopoisk_id,
    imdb_id := d.imdb_id,
    shikimori_id := d.shikimori_id,
    mydramalist_id := d.mydramalist_id,
    genres := [],
    countries := [] }

/-- `_create_item`: create the row (an `IntegrityError` → `none`), add
the M2M relations, create the metadata row seeded with the API time. -/
def create_item (st : Store) (d : ItemData) (gnames cnames : List String) (t : Int) :
    Option (Store × Nat) :=
  let ni := item_from_data st.nextPk d
  if !ids_unique_against st.items ni then none
  else
    let st1 := { st with items := st.items ++ [ni], nextPk := st.nextPk + 1 }
    let mr := update_m2m_relations st1 ni gnames cnames
    let st3 := update_metadata mr.1 ni.pk t true
    some (st3, ni.pk)

/-- `process_api_item`: the per-item transaction.  Returns the store
after the call (the input store again when the item errored — the
transaction is rolled back), the processed row's pk (or `none`) and the
status string the method returns. -/
def process_api_item (cfg : Config) (st : Store) (mapped : Option MappedData) (t : Int) :
    Store × Option Nat × String :=
  match mapped with
  | none => (st, none, "skipped_mapping_failed")
  | some md =>
    let d := md.media_item_data
    if !oStrTruthy d.title then (st, none, "skipped_missing_title")
    else if !anyApiId d then (st, none, "skipped_no_ids")
    else
      match find_exact_match st d with
      | .multiple => (st, none, "error_MediaItemProcessorError")
      | .found item =>
        match update_item cfg st item d md.genres md.countries t false with
        | none => (st, none, "error_MediaItemProcessorError")
        | some r => (r.1, some item.pk, r.2)
      | .missing =>
        match find_subset_match st d with
        | some item =>
          match update_item cfg st item d md.genres md.countries t true with
          | none => (st, none, "error_MediaItemProcessorError")
          | some r => (r.1, some item.pk, r.2)
        | none =>
          match create_item st d md.genres md.countries t with
          | none => (st, none, "error_MediaItemProcessorError")
          | some r => (r.1, some r.2, "created")

/-! ## The Kodik payload mapper (`kodik_mapper.py`) -/

/-- A JSON value as the Kodik API delivers it (numbers restricted to
integers — the mapper only tests truthiness of and stringifies them). -/
inductive JVal where
  | null
  | b (v : Bool)
  | i (n : Int)
  | s (v : String)
  | arr (xs : List JVal)
  | obj (kvs : List (String × JVal))

/-- Python truthiness of a parsed JSON value. -/
def JVal.truthy : JVal → Bool
  | .null => false
  | .b v => v
  | .i n => n != 0
  | .s v => v != ""
  | .arr xs => !xs.isEmpty
  | .obj kvs => !kvs.isEmpty

def JVal.isObj : JVal → Bool
  | .obj _ => true
  | _ => false

/-- `'key' in data` — key presence (a present null key counts). -/
def JVal.hasKey : JVal → String → Bool
  | .obj kvs, k => kvs.any (fun p => p.1 == k)
  | _, _ => false

/-- `data.get(key)` of a dict parsed from JSON: an absent key and a JSON
null value both give the Python `None`, modelled as `none`. -/
def JVal.get? : JVal → String → Option JVal
  | .obj kvs, k =>
    (match kvs.find? (fun p => p.1 == k) with
     | some (_, .null) => none
     | some (_, v) => some v
     | none => none)
  | _, _ => none

/-- Truthiness of a `dict.get` result (`None` is falsy). -/
def oTruthy : Option JVal → Bool
  | some v => v.truthy
  | none => false

mutual

/-- Python `repr` of a parsed JSON value (strings quoted). -/
def pyRepr : JVal → String
  | .null => "None"
  | .b true => "True"
  | .b false => "False"
  | .i n => toString n
  | .s v => "\x27" ++ v ++ "\x27"
  | .arr xs => "[" ++ pyReprSeq xs ++ "]"
  | .obj kvs => "\x7b" ++ pyReprPairs kvs ++ "\x7d"

def pyReprSeq : List JVal → String
  | [] => ""
  | [x] => pyRepr x
  | x :: y :: rest => pyRepr x ++ ", " ++ pyReprSeq (y :: rest)

def pyReprPairs : List (String × JVal) → String
  | [] => ""
  | [p] => "\x27" ++ p.1 ++ "\x27: " ++ pyRepr p.2
  | p :: q :: rest => "\x27" ++ p.1 ++ "\x27: " ++ pyRepr p.2 ++ ", " ++ pyReprPairs (q :: rest)

end

/-- Python `str` of a parsed JSON value (top-level strings unquoted). -/
def pyStr : JVal → String
  | .s v => v
  | .null => "None"
  | .b true => "True"
  | .b false => "False"
  | .i n => toString n
  | .arr xs => "[" ++ pyReprSeq xs ++ "]"
  | .obj kvs => "\x7b" ++ pyReprPairs kvs ++ "\x7d"

instance : Repr JVal := ⟨fun v _ => Std.Format.text (pyRepr v)⟩

/-- `_get_safe_string`. -/
def get_safe_string (d : JVal) (key : String) : Option String :=
  if !(d.truthy && d.isObj) then none
  else (d.get? key).map pyStr

/-- `_get_string_list`. -/
def get_string_list (d : JVal) (key : String) : List String :=
  if !(d.truthy && d.isObj) then []
  else
    match d.get? key with
    | some (.arr xs) => (xs.filter JVal.truthy).map (fun x => pyTrim (pyStr x))
    | _ => []

/-- The values of `MediaItem.MediaType` (`catalog/models.py`). -/
def validMediaTypes : List String :=
  ["movie", "tv_show", "anime_movie", "anime_series", "cartoon_movie",
   "cartoon_series", "documentary_movie", "documentary_series", "unknown"]

/-- `_map_kodik_type_to_model_type`: direct enum lookup, anything else
(including a non-string) raises `ValueError` and falls back to UNKNOWN. -/
def map_kodik_type_to_model_type (kodik_type : Option JVal) : String :=
  match kodik_type with
  | none => "unknown"
  | some v =>
    if !v.truthy then "unknown"
    else
      match v with
      | .s t => if validMediaTypes.contains t then t else "unknown"
      | _ => "unknown"

/-- `_parse_translation`: (translation_info, translation id string). -/
def parse_translation (td : Option JVal) : Option JVal × Option String :=
  match td with
  | none => (none, none)
  | some t =>
    if !(t.truthy && t.isObj) then (none, none)
    else
      let title := t.get? "title"
      let ty := t.get? "type"
      let tid := some (pyStr ((t.get? "id").getD .null))
      if oTruthy title && oTruthy ty then
        (some (.s (pyStr (title.getD .null) ++ " (" ++ pyStr (ty.getD .null) ++ ")")), tid)
      else if oTruthy title then (title, tid)
      else (none, tid)

/-- Drop the `None`-valued keys of a dict under construction
(`{k: v for k, v in d.items() if v is not None}`). -/
def assocDropNone (l : List (String × Option JVal)) : List (String × JVal) :=
  l.filterMap fun p => p.2.map fun v => (p.1, v)

/-- Python `int(s)` on a string key: optional surrounding whitespace,
optional sign, decimal digits; anything else raises `ValueError`. -/
def pyInt? (s : String) : Option Int :=
  let t := pyTrim s
  let core := if pyStartsWith t "-" || pyStartsWith t "+" then (t.data.drop 1).asString else t
  if core.data ≠ [] ∧ core.data.all Char.isDigit then
    let n : Nat := core.data.foldl (fun a c => a * 10 + (c.toNat - 48)) 0
    if pyStartsWith t "-" then some (-(n : Int)) else some (n : Int)
  else none

/-- Stable ascending insertion by a numeric key (`list.sort(key=...)`). -/
def insertByNum {α : Type} (num : α → Int) (x : α) : List α → List α
  | [] => [x]
  | y :: ys => if num x < num y then x :: y :: ys else y :: insertByNum num x ys

def sortByNum {α : Type} (num : α → Int) (l : List α) : List α :=
  l.foldl (fun acc x => insertByNum num x acc) []

/-- Ascending insertion of a string, duplicates kept out by the caller. -/
def insertStr (x : String) : List String → List String
  | [] => [x]
  | y :: ys => if pyStrLt x y then x :: y :: ys else y :: insertStr x ys

/-- `sorted(list(a_set))`: deduplicate (set semantics) and sort. -/
def sortedDedup (l : List String) : List String :=
  (l.foldl addIfAbsent []).foldl (fun acc x => insertStr x acc) []

/-- One mapped episode entry of the mapper's `seasons_data`. -/
structure SeasonEp where
  number : Int
  title : Option JVal
  link_data : Option (List (String × JVal))
deriving Repr

/-- One mapped season entry of the mapper's `seasons_data`. -/
structure SeasonEntry where
  number : Int
  episodes_data : List SeasonEp
deriving Repr

/-- The mapper's return dict: `media_item_data` (keys with non-`None`
values, in insertion order), `genres`, `countries`, and the conditional
`main_source_link_data` / `seasons_data` keys. -/
structure MappedOut where
  media_item_data : List (String × JVal)
  genres : List String
  countries : List String
  main_source_link_data : Option (List (String × JVal))
  seasons_data : Option (List SeasonEntry)
deriving Repr

/-- The episode loop body of the mapper's season processing. -/
def mapEpisode (ssid quality tinfo : Option JVal) (season_number : Int)
    (ep : String × JVal) : Option SeasonEp :=
  match pyInt? ep.1 with
  | none => none
  | some episode_number =>
    let content := ep.2
    let episode_link : Option JVal :=
      match content with
      | .s l => some (.s l)
      | .obj _ => content.get? "link"
      | _ => none
    let episode_title : Option JVal :=
      match content with
      | .obj _ => content.get? "title"
      | _ => none
    let link_data : Option (List (String × JVal)) :=
      match episode_link with
      | some l =>
        if l.truthy then
          some (assocDropNone
            [("player_link", some l), ("quality_info", quality),
             ("translation_info", tinfo),
             ("source_specific_id", some (.s (pyStr (ssid.getD .null) ++ "_s" ++
               toString season_number ++ "_e" ++ toString episode_number)))])
        else none
      | none => none
    some { number := episode_number, title := episode_title, link_data := link_data }

/-- The season loop body of the mapper. -/
def mapSeason (ssid quality tinfo : Option JVal) (entry : String × JVal) :
    Option SeasonEntry :=
  match pyInt? entry.1 with
  | none => none
  | some season_number =>
    let episodes_api : Option JVal :=
      if entry.2.isObj then entry.2.get? "episodes" else none
    let eps : List SeasonEp :=
      match episodes_api with
      | some (.obj kvs) =>
        if (kvs : List (String × JVal)).isEmpty then []
        else sortByNum SeasonEp.number (kvs.filterMap (mapEpisode ssid quality tinfo season_number))
      | _ => []
    some { number := season_number, episodes_data := eps }

/-- The empty-string-to-None cleanup loop of the mapper
(`kodik_mapper.py` lines 119–121). -/
def cleanEmptyStr (v : Option JVal) : Option JVal :=
  match v with
  | some (.s "") => none
  | x => x

/-- `_get_safe_string(material_data, key) or prior` — the id override
from `material_data` (`kodik_mapper.py` lines 133–139). -/
def material_override (matJ : JVal) (k : String) (prior : Option JVal) : Option JVal :=
  match get_safe_string matJ k with
  | some s => if s != "" then some (.s s) else prior
  | none => prior

/-- `map_kodik_item_to_models` (`kodik_mapper.py` lines 61–226). -/
def map_kodik_item_to_models (item_data : JVal) : Option MappedOut :=
  if !item_data.truthy || !item_data.isObj || !item_data.hasKey "id" then none
  else
    let source_specific_id := item_data.get? "id"
    let title0 := item_data.get? "title"
    let orig := item_data.get? "title_orig"
    let title := if !oTruthy title0 && oTruthy orig then orig else title0
    if !oTruthy title then none
    else
      let kp0 := cleanEmptyStr (item_data.get? "kinopoisk_id")
      let imdb0 := cleanEmptyStr (item_data.get? "imdb_id")
      let shiki0 := cleanEmptyStr (item_data.get? "shikimori_id")
      let mdl0 := cleanEmptyStr (item_data.get? "mdl_id")
      let orig0 := cleanEmptyStr orig
      let ry := item_data.get? "year"
      let mt : Option JVal := some (.s (map_kodik_type_to_model_type (item_data.get? "type")))
      let material := item_data.get? "material_data"
      let matJ := material.getD .null
      let hasMat := matJ.truthy && matJ.isObj
      let mid : List (String × Option JVal) :=
        [("title", title), ("original_title", orig0), ("release_year", ry),
         ("media_type", mt),
         ("kinopoisk_id", if hasMat then material_override matJ "kinopoisk_id" kp0 else kp0),
         ("imdb_id", if hasMat then material_override matJ "imdb_id" imdb0 else imdb0),
         ("shikimori_id", if hasMat then material_override matJ "shikimori_id" shiki0 else shiki0),
         ("mydramalist_id", if hasMat then material_override matJ "mydramalist_id" mdl0 else mdl0)] ++
        (if hasMat then
          [("description", (get_safe_string matJ "description").map JVal.s),
           ("poster_url", (get_safe_string matJ "poster_url").map JVal.s)]
         else [])
      let genres := if hasMat then
          sortedDedup (get_string_list matJ "genres" ++ get_string_list matJ "anime_genres" ++
            get_string_list matJ "drama_genres")
        else sortedDedup []
      let countries := if hasMat then sortedDedup (get_string_list matJ "countries")
        else sortedDedup []
      let tp := parse_translation (item_data.get? "translation")
      let translation_info := tp.1
      let player_link := item_data.get? "link"
      let msl : Option (List (String × JVal)) :=
        if oTruthy player_link then
          some (assocDropNone
            [("player_link", player_link), ("quality_info", item_data.get? "quality"),
             ("translation_info", translation_info),
             ("source_specific_id", source_specific_id)])
        else none
      let seasonsJ := item_data.get? "seasons"
      let seasons : Option (List SeasonEntry) :=
        match seasonsJ with
        | some (.obj entries) =>
          if (JVal.obj entries).truthy then
            some (sortByNum SeasonEntry.number
              (entries.filterMap (mapSeason source_specific_id (item_data.get? "quality") translation_info)))
          else none
        | _ => none
      some { media_item_data := assocDropNone mid, genres := genres,
             countries := countries, main_source_link_data := msl,
             seasons_data := seasons }

/-! ## Translation/episode synchronisation (`update_translations.py`) -/

/-- `MediaSourceLink` defaults written by the episode-link upsert. -/
structure EpLinkData where
  player_link : JVal
  quality_info : Option JVal
  last_seen_at : Int
deriving Repr

/-- The rows `Command._process_media_item` touches for one media item
and one (source, translation) pair: `Season` rows (by number), `Episode`
rows ((season number, episode number, title)), `Screenshot` rows and the
episode-scoped `MediaSourceLink` rows keyed by (season, episode). -/
structure SyncStore where
  seasons : List Int
  episodes : List (Int × Int × Option JVal)
  screenshots : List (Int × Int × String)
  epLinks : List (Int × Int × EpLinkData)
deriving Repr

/-- `Season.objects.get_or_create(media_item, season_number)`. -/
def season_get_or_create (st : SyncStore) (sn : Int) : SyncStore :=
  if st.seasons.contains sn then st else { st with seasons := st.seasons ++ [sn] }

/-- `Episode.objects.update_or_create(season, episode_number,
defaults={'title': episode_title})` — the defaults are (re)applied on an
existing row as well. -/
def episode_update_or_create (st : SyncStore) (sn en : Int) (title : Option JVal) :
    SyncStore :=
  if st.episodes.any (fun e => e.1 == sn && e.2.1 == en) then
    { st with episodes := st.episodes.map fun e =>
        if e.1 == sn && e.2.1 == en then (e.1, e.2.1, title) else e }
  else { st with episodes := st.episodes ++ [(sn, en, title)] }

/-- `Screenshot.objects.get_or_create(episode, url)`. -/
def screenshot_get_or_create (st : SyncStore) (sn en : Int) (url : String) : SyncStore :=
  if st.screenshots.any (fun s => s.1 == sn && s.2.1 == en && s.2.2 == url) then st
  else { st with screenshots := st.screenshots ++ [(sn, en, url)] }

/-- `MediaSourceLink.objects.update_or_create(defaults, source,
media_item=None, episode, translation)`. -/
def eplink_update_or_create (st : SyncStore) (sn en : Int) (ld : EpLinkData) : SyncStore :=
  if st.epLinks.any (fun l => l.1 == sn && l.2.1 == en) then
    { st with epLinks := st.epLinks.map fun l =>
        if l.1 == sn && l.2.1 == en then (l.1, l.2.1, ld) else l }
  else { st with epLinks := st.epLinks ++ [(sn, en, ld)] }

/-- The episode loop body of `Command._process_media_item`
(`update_translations.py` lines 184–242). -/
def sync_episode_entry (quality : Option JVal) (now : Int) (sn : Int)
    (st : SyncStore) (e : String × JVal) : SyncStore :=
  match pyInt? e.1 with
  | none => st
  | some en =>
    if en ≤ 0 then st
    else
      let content := e.2
      let episode_link : Option JVal :=
        match content with
        | .s l => some (.s l)
        | .obj _ => content.get? "link"
        | _ => none
      let episode_title : Option JVal :=
        match content with
        | .obj _ => content.get? "title"
        | _ => none
      let shots : List String :=
        match content with
        | .obj _ =>
          (match content.get? "screenshots" with
           | some (.arr xs) => xs.filterMap (fun sv =>
               match sv with
               | .s v => if pyStartsWith v "http" then some v else none
               | _ => none)
           | _ => [])
        | _ => []
      let st1 := episode_update_or_create st sn en episode_title
      let st2 := shots.foldl (fun s u => screenshot_get_or_create s sn en u) st1
      match episode_link with
      | some l => if l.truthy then eplink_update_or_create st2 sn en ⟨l, quality, now⟩ else st2
      | none => st2

/-- The season loop body of `Command._process_media_item`
(`update_translations.py` lines 167–183).  `episodes_list_data` is read
behind an `isinstance(season_content, dict)` guard, but the next line
`season_link = season_content.get('link')` is unconditional: on non-dict
season content it raises `AttributeError` (modelled as `none`), which
propagates out of the `transaction.atomic` method and rolls the whole
item back.  The raise sits after the number parse and the `< -1` skip
and before `Season.objects.get_or_create`. -/
def sync_season_entry (quality : Option JVal) (now : Int)
    (st : SyncStore) (entry : String × JVal) : Option SyncStore :=
  match pyInt? entry.1 with
  | none => some st
  | some sn =>
    if sn < -1 then some st
    else
      let episodesJ : Option JVal :=
        if entry.2.isObj then entry.2.get? "episodes" else none
      if !entry.2.isObj then none
      else
        let st1 := season_get_or_create st sn
        match episodesJ with
        | some (.obj eps) =>
          some (if (eps : List (String × JVal)).isEmpty then st1
                else eps.foldl (sync_episode_entry quality now sn) st1)
        | _ => some st1

/-- The seasons/episodes section of `Command._process_media_item` for
one translation variant: the variant's `seasons` dict as an entry list,
with the variant's quality and the run's `check_start_time` fixed.
A raising entry aborts the loop (`none`): the per-item transaction is
rolled back, so no partial writes survive. -/
def sync_seasons (quality : Option JVal) (now : Int) :
    SyncStore → List (String × JVal) → Option SyncStore
  | st, [] => some st
  | st, e :: rest =>
    match sync_season_entry quality now st e with
    | none => none
    | some st1 => sync_seasons quality now st1 rest

/-- The stored title of the `Episode` row keyed (season number, episode
number): `none` when no such row exists. -/
def episode_title? (st : SyncStore) (sn en : Int) : Option (Option JVal) :=
  (st.episodes.find? (fun e => e.1 == sn && e.2.1 == en)).map (·.2.2)

/-! ## Store invariants -/

/-- The conditional-uniqueness invariant of the spec: no two rows
(distinct pks) share the same non-null value in the same external-id
column. -/
def UniqStore (st : Store) : Prop :=
  ∀ i ∈ st.items, ∀ j ∈ st.items, ∀ f ∈ idFields,
    i.getId f ≠ none → i.getId f = j.getId f → i.pk = j.pk

instance (st : Store) : Decidable (UniqStore st) := by
  unfold UniqStore; infer_instance

/-- Database well-formedness: pks are below the allocator and distinct,
metadata rows point below the allocator. -/
def WFStore (st : Store) : Prop :=
  (∀ i ∈ st.items, i.pk < st.nextPk) ∧
  (st.items.map (·.pk)).Nodup ∧
  (∀ p ∈ st.meta, p.1 < st.nextPk)

instance (st : Store) : Decidable (WFStore st) := by
  unfold WFStore; infer_instance

end JustMedia

/-! # Theorems -/

namespace JustMedia

/-- The priority a subset candidate can get is one of −1, 0, 1. -/
theorem subset_priority_bounds (d : ItemData) (i : Item) :
    -1 ≤ subset_priority d i ∧ subset_priority d i ≤ 1 := by
  unfold subset_priority
  split
  · omega
  · split
    · omega
    · omega

/-- On any candidate that has at least one non-empty id,
`parse_kodik.py`'s chained-`elif` priority computes the same value as
the processor's. -/
theorem parse_kodik_priority_eq (d : ItemData) (i : Item)
    (h : hasNonEmptyIds i = true) :
    parse_kodik_priority d i = subset_priority d i := by
  simp only [hasNonEmptyIds, idFields, List.any_cons, List.any_nil, Item.getId,
    Bool.or_false, Bool.or_eq_true] at h
  unfold parse_kodik_priority subset_priority
  cases hk : oStrTruthy i.kinopoisk_id <;>
    cases hi : oStrTruthy i.imdb_id <;>
    cases hs : oStrTruthy i.shikimori_id <;>
    cases hm : oStrTruthy i.mydramalist_id <;>
    cases hdk : oStrTruthy d.kinopoisk_id <;>
    cases hdi : oStrTruthy d.imdb_id <;>
    simp_all

/-- What the `_find_subset_match` scan computes, relative to an
accumulator `(b, h)`: either no valid candidate beats `h` and the
accumulator survives, or the scan returns the first valid candidate
attaining the maximal priority of the list (and that priority beats `h`). -/
theorem subset_loop_spec (d : ItemData) :
    ∀ (l : List Item) (b : Option Item) (h : Int),
      (subset_loop d l (b, h) = (b, h) ∧
        ∀ c ∈ l, valid_subset_cand d c = true → subset_priority d c ≤ h) ∨
      (∃ l₁ m l₂, l = l₁ ++ m :: l₂ ∧ valid_subset_cand d m = true ∧
        h < subset_priority d m ∧
        subset_loop d l (b, h) = (some m, subset_priority d m) ∧
        (∀ c ∈ l₁, valid_subset_cand d c = true → subset_priority d c < subset_priority d m) ∧
        (∀ c ∈ l₂, valid_subset_cand d c = true → subset_priority d c ≤ subset_priority d m)) := by
  intro l
  induction l with
  | nil =>
    intro b h
    left
    exact ⟨rfl, by simp⟩
  | cons i rest ih =>
    intro b h
    by_cases hv : valid_subset_cand d i = true
    · by_cases hp : subset_priority d i > h
      · have hstep : subset_loop d (i :: rest) (b, h) =
            subset_loop d rest (some i, subset_priority d i) := by
          simp [subset_loop, hv, hp]
        rcases ih (some i) (subset_priority d i) with ⟨heq, hall⟩ |
          ⟨l₁, m, l₂, hsplit, hm, hlt, heq, h₁, h₂⟩
        · right
          exact ⟨[], i, rest, by simp, hv, hp, by rw [hstep, heq], by simp, hall⟩
        · right
          refine ⟨i :: l₁, m, l₂, by simp [hsplit], hm, lt_trans hp hlt,
            by rw [hstep, heq], ?_, h₂⟩
          intro c hc hcv
          rcases List.mem_cons.mp hc with rfl | hc'
          · exact hlt
          · exact h₁ c hc' hcv
      · have hstep : subset_loop d (i :: rest) (b, h) = subset_loop d rest (b, h) := by
          simp [subset_loop, hv, hp]
        push_neg at hp
        rcases ih b h with ⟨heq, hall⟩ | ⟨l₁, m, l₂, hsplit, hm, hlt, heq, h₁, h₂⟩
        · left
          refine ⟨by rw [hstep, heq], ?_⟩
          intro c hc hcv
          rcases List.mem_cons.mp hc with rfl | hc'
          · exact hp
          · exact hall c hc' hcv
        · right
          refine ⟨i :: l₁, m, l₂, by simp [hsplit], hm, hlt, by rw [hstep, heq], ?_, h₂⟩
          intro c hc hcv
          rcases List.mem_cons.mp hc with rfl | hc'
          · omega
          · exact h₁ c hc' hcv
    · have hstep : subset_loop d (i :: rest) (b, h) = subset_loop d rest (b, h) := by
        simp [subset_loop, hv]
      rcases ih b h with ⟨heq, hall⟩ | ⟨l₁, m, l₂, hsplit, hm, hlt, heq, h₁, h₂⟩
      · left
        refine ⟨by rw [hstep, heq], ?_⟩
        intro c hc hcv
        rcases List.mem_cons.mp hc with rfl | hc'
        · exact absurd hcv hv
        · exact hall c hc' hcv
      · right
        refine ⟨i :: l₁, m, l₂, by simp [hsplit], hm, hlt, by rw [hstep, heq], ?_, h₂⟩
        intro c hc hcv
        rcases List.mem_cons.mp hc with rfl | hc'
        · exact absurd hcv hv
        · exact h₁ c hc' hcv

/-- C4: when `_find_subset_match` selects a candidate, the selected
candidate is a valid subset candidate of maximal priority among the
valid candidates (so one holding kinopoisk/imdb — priority 1 — beats one
relying only on shikimori/mydramalist — priority 0, and when the record
itself supplies kinopoisk/imdb a candidate lacking both has priority −1,
below every selectable candidate); it is the first candidate of the scan
attaining that maximal priority, so later equal-priority candidates do
not replace it; and `parse_kodik.py`'s variant of the priority rule
agrees with the processor's on every candidate with a non-empty id. -/
theorem C4_subset_match_priority (st : Store) (d : ItemData) (m : Item)
    (hm : find_subset_match st d = some m) :
    m ∈ st.items.filter (candidate_pred d) ∧
    valid_subset_cand d m = true ∧
    0 ≤ subset_priority d m ∧
    (∀ c ∈ st.items.filter (candidate_pred d), valid_subset_cand d c = true →
      subset_priority d c ≤ subset_priority d m) ∧
    (∃ l₁ l₂, st.items.filter (candidate_pred d) = l₁ ++ m :: l₂ ∧
      ∀ c ∈ l₁, valid_subset_cand d c = true →
        subset_priority d c < subset_priority d m) ∧
    (∀ i : Item, hasNonEmptyIds i = true → parse_kodik_priority d i = subset_priority d i) := by
  unfold find_subset_match at hm
  by_cases ha : anyApiId d = true
  · rw [ha] at hm
    simp only [Bool.not_true, Bool.false_eq_true, if_false] at hm
    by_cases he : (st.items.filter (candidate_pred d)).isEmpty = true
    · rw [if_pos he] at hm
      exact absurd hm (by simp)
    · rw [if_neg he] at hm
      rcases subset_loop_spec d (st.items.filter (candidate_pred d)) none (-1) with
        ⟨heq, _⟩ | ⟨l₁, m', l₂, hsplit, hm', hlt, heq, h₁, h₂⟩
      · rw [heq] at hm
        exact absurd hm (by simp)
      · rw [heq] at hm
        simp only [Option.some.injEq] at hm
        subst hm
        refine ⟨by simp [hsplit], hm', by omega, ?_, ⟨l₁, l₂, hsplit, h₁⟩,
          fun i hi => parse_kodik_priority_eq d i hi⟩
        intro c hc hcv
        rw [hsplit] at hc
        rcases List.mem_append.mp hc with hc' | hc'
        · exact le_of_lt (h₁ c hc' hcv)
        · rcases List.mem_cons.mp hc' with rfl | hc''
          · exact le_refl _
          · exact h₂ c hc'' hcv
  · simp only [Bool.not_eq_true] at ha
    rw [ha] at hm
    exact absurd hm (by simp)

end JustMedia

namespace JustMedia

/-- C4 witness at a concrete store: the record brings kinopoisk "k1" and
shikimori "s1"; the candidate holding only shikimori is deprioritised,
the one holding kinopoisk is selected, with priority ≥ 0. -/
theorem C4_subset_match_priority_witness :
    (0:Int) ≤ subset_priority
      { title := some "X", kinopoisk_id := some "k1", shikimori_id := some "s1" }
      ⟨1, "B", none, "movie", none, none, none, some "k1", none, none, none, [], []⟩ :=
  (C4_subset_match_priority
    ⟨[⟨0, "A", none, "movie", none, none, none, none, none, some "s1", none, [], []⟩,
      ⟨1, "B", none, "movie", none, none, none, some "k1", none, none, none, [], []⟩],
     2, [], [], []⟩
    { title := some "X", kinopoisk_id := some "k1", shikimori_id := some "s1" }
    ⟨1, "B", none, "movie", none, none, none, some "k1", none, none, none, [], []⟩
    (by decide)).2.2.1

/-- C6 (amended): when the exact-match lookup finds two or more rows for
the record's four-id combination, processing aborts: the store is left
exactly as it was, no entity is returned, and the status is the error
status "error_MediaItemProcessorError". -/
theorem C6_multiple_exact_error (cfg : Config) (st : Store) (d : ItemData)
    (gn cn : List String) (t : Int)
    (hTitle : oStrTruthy d.title = true)
    (hIds : anyApiId d = true)
    (hMulti : 2 ≤ (st.items.filter (exact_match_pred d)).length) :
    process_api_item cfg st (some ⟨d, gn, cn⟩) t =
      (st, none, "error_MediaItemProcessorError") := by
  have hf : find_exact_match st d = .multiple := by
    unfold find_exact_match
    rcases hl : st.items.filter (exact_match_pred d) with _ | ⟨a, rest⟩
    · rw [hl] at hMulti; simp at hMulti
    · rcases rest with _ | ⟨b2, rest2⟩
      · rw [hl] at hMulti; simp at hMulti
      · rfl
  unfold process_api_item
  simp only [hTitle, hIds, hf, Bool.not_true, Bool.false_eq_true, if_false]

/-- C6 counterexample to the claim as stated: at a store with two rows
both carrying kinopoisk_id "1", the returned status string is
"error_MediaItemProcessorError", which is not the literal "error". -/
theorem C6_counterexample :
    (process_api_item ⟨false⟩
      ⟨[⟨0, "A", none, "movie", none, none, none, some "1", none, none, none, [], []⟩,
        ⟨1, "B", none, "movie", none, none, none, some "1", none, none, none, [], []⟩],
       2, [], [], []⟩
      (some ⟨{ title := some "X", kinopoisk_id := some "1" }, [], []⟩) 0).2.2 =
      "error_MediaItemProcessorError" ∧
    "error_MediaItemProcessorError" ≠ "error" := by
  exact ⟨rfl, by decide⟩

/-- C6 witness: the amended theorem applied at the concrete scenario-D
store. -/
theorem C6_multiple_exact_error_witness :
    process_api_item ⟨false⟩
      ⟨[⟨0, "A", none, "movie", none, none, none, some "1", none, none, none, [], []⟩,
        ⟨1, "B", none, "movie", none, none, none, some "1", none, none, none, [], []⟩],
       2, [], [], []⟩
      (some ⟨{ title := some "X", kinopoisk_id := some "1" }, [], []⟩) 3 =
      (⟨[⟨0, "A", none, "movie", none, none, none, some "1", none, none, none, [], []⟩,
         ⟨1, "B", none, "movie", none, none, none, some "1", none, none, none, [], []⟩],
        2, [], [], []⟩, none, "error_MediaItemProcessorError") :=
  C6_multiple_exact_error ⟨false⟩ _ _ _ _ 3 (by decide) (by decide) (by decide)

end JustMedia

namespace JustMedia

/-- Fold preservation of an invariant. -/
theorem foldl_preserve {α β : Type} {f : β → α → β} {P : β → Prop}
    (hstep : ∀ s a, P s → P (f s a)) :
    ∀ (l : List α) (s : β), P s → P (l.foldl f s) := by
  intro l
  induction l with
  | nil => intro s hs; exact hs
  | cons a rest ih =>
    intro s hs
    rw [List.foldl_cons]
    exact ih (f s a) (hstep s a hs)

/-- `Season.get_or_create` touches only the season set: it adds at most
the requested number, and makes it present. -/
theorem season_goc_facts (st : SyncStore) (sn : Int) :
    (season_get_or_create st sn).episodes = st.episodes ∧
    (season_get_or_create st sn).screenshots = st.screenshots ∧
    (season_get_or_create st sn).epLinks = st.epLinks ∧
    (∀ n ∈ (season_get_or_create st sn).seasons, n ∈ st.seasons ∨ n = sn) ∧
    sn ∈ (season_get_or_create st sn).seasons ∧
    (∀ n ∈ st.seasons, n ∈ (season_get_or_create st sn).seasons) := by
  unfold season_get_or_create
  by_cases hc : st.seasons.contains sn = true
  · rw [if_pos hc]
    exact ⟨rfl, rfl, rfl, fun n hn => Or.inl hn, List.mem_of_elem_eq_true hc, fun n hn => hn⟩
  · rw [if_neg hc]
    refine ⟨rfl, rfl, rfl, ?_, ?_, ?_⟩
    · intro n hn
      rcases List.mem_append.mp hn with h | h
      · exact Or.inl h
      · exact Or.inr (List.mem_singleton.mp h)
    · exact List.mem_append.mpr (Or.inr (List.mem_singleton.mpr rfl))
    · intro n hn
      exact List.mem_append.mpr (Or.inl hn)

/-- `Episode.update_or_create` touches only the episode rows, and every
row it touches carries the requested key. -/
theorem episode_uoc_facts (st : SyncStore) (sn en : Int) (title : Option JVal) :
    (episode_update_or_create st sn en title).seasons = st.seasons ∧
    (episode_update_or_create st sn en title).screenshots = st.screenshots ∧
    (episode_update_or_create st sn en title).epLinks = st.epLinks ∧
    ∀ x ∈ (episode_update_or_create st sn en title).episodes,
      x ∈ st.episodes ∨ (x.1 = sn ∧ x.2.1 = en) := by
  unfold episode_update_or_create
  by_cases hc : st.episodes.any (fun e => e.1 == sn && e.2.1 == en) = true
  · rw [if_pos hc]
    refine ⟨rfl, rfl, rfl, ?_⟩
    intro x hx
    rcases List.mem_map.mp hx with ⟨y, hy, hxy⟩
    by_cases hk : (y.1 == sn && y.2.1 == en) = true
    · rw [if_pos hk] at hxy
      rcases Bool.and_eq_true_iff.mp hk with ⟨hk1, hk2⟩
      subst hxy
      exact Or.inr ⟨beq_iff_eq.mp hk1, beq_iff_eq.mp hk2⟩
    · rw [if_neg hk] at hxy
      subst hxy
      exact Or.inl hy
  · rw [if_neg hc]
    refine ⟨rfl, rfl, rfl, ?_⟩
    intro x hx
    rcases List.mem_append.mp hx with h | h
    · exact Or.inl h
    · rcases List.mem_singleton.mp h with rfl
      exact Or.inr ⟨rfl, rfl⟩

/-- `Screenshot.get_or_create` touches only the screenshot rows. -/
theorem screenshot_goc_facts (st : SyncStore) (sn en : Int) (url : String) :
    (screenshot_get_or_create st sn en url).seasons = st.seasons ∧
    (screenshot_get_or_create st sn en url).episodes = st.episodes ∧
    (screenshot_get_or_create st sn en url).epLinks = st.epLinks ∧
    ∀ x ∈ (screenshot_get_or_create st sn en url).screenshots,
      x ∈ st.screenshots ∨ (x.1 = sn ∧ x.2.1 = en) := by
  unfold screenshot_get_or_create
  by_cases hc : st.screenshots.any
      (fun s => s.1 == sn && s.2.1 == en && s.2.2 == url) = true
  · rw [if_pos hc]
    exact ⟨rfl, rfl, rfl, fun x hx => Or.inl hx⟩
  · rw [if_neg hc]
    refine ⟨rfl, rfl, rfl, ?_⟩
    intro x hx
    rcases List.mem_append.mp hx with h | h
    · exact Or.inl h
    · rcases List.mem_singleton.mp h with rfl
      exact Or.inr ⟨rfl, rfl⟩

/-- The episode-link upsert touches only the link rows, and every row it
touches carries the requested key. -/
theorem eplink_uoc_facts (st : SyncStore) (sn en : Int) (ld : EpLinkData) :
    (eplink_update_or_create st sn en ld).seasons = st.seasons ∧
    (eplink_update_or_create st sn en ld).episodes = st.episodes ∧
    (eplink_update_or_create st sn en ld).screenshots = st.screenshots ∧
    ∀ x ∈ (eplink_update_or_create st sn en ld).epLinks,
      x ∈ st.epLinks ∨ (x.1 = sn ∧ x.2.1 = en) := by
  unfold eplink_update_or_create
  by_cases hc : st.epLinks.any (fun l => l.1 == sn && l.2.1 == en) = true
  · rw [if_pos hc]
    refine ⟨rfl, rfl, rfl, ?_⟩
    intro x hx
    rcases List.mem_map.mp hx with ⟨y, hy, hxy⟩
    by_cases hk : (y.1 == sn && y.2.1 == en) = true
    · rw [if_pos hk] at hxy
      rcases Bool.and_eq_true_iff.mp hk with ⟨hk1, hk2⟩
      subst hxy
      exact Or.inr ⟨beq_iff_eq.mp hk1, beq_iff_eq.mp hk2⟩
    · rw [if_neg hk] at hxy
      subst hxy
      exact Or.inl hy
  · rw [if_neg hc]
    refine ⟨rfl, rfl, rfl, ?_⟩
    intro x hx
    rcases List.mem_append.mp hx with h | h
    · exact Or.inl h
    · rcases List.mem_singleton.mp h with rfl
      exact Or.inr ⟨rfl, rfl⟩

/-- The screenshot fold of one episode entry: only screenshot rows with
the entry's key are added. -/
theorem shots_fold_facts (sn en : Int) (shots : List String) (st : SyncStore) :
    ((shots.foldl (fun s u => screenshot_get_or_create s sn en u) st)).seasons = st.seasons ∧
    ((shots.foldl (fun s u => screenshot_get_or_create s sn en u) st)).episodes = st.episodes ∧
    ((shots.foldl (fun s u => screenshot_get_or_create s sn en u) st)).epLinks = st.epLinks ∧
    ∀ x ∈ ((shots.foldl (fun s u => screenshot_get_or_create s sn en u) st)).screenshots,
      x ∈ st.screenshots ∨ (x.1 = sn ∧ x.2.1 = en) := by
  induction shots generalizing st with
  | nil => exact ⟨rfl, rfl, rfl, fun x hx => Or.inl hx⟩
  | cons u rest ih =>
    rw [List.foldl_cons]
    obtain ⟨e1, e2, e3, e4⟩ := ih (screenshot_get_or_create st sn en u)
    obtain ⟨g1, g2, g3, g4⟩ := screenshot_goc_facts st sn en u
    refine ⟨by rw [e1, g1], by rw [e2, g2], by rw [e3, g3], ?_⟩
    intro x hx
    rcases e4 x hx with h | h
    · exact g4 x h
    · exact Or.inr h

end JustMedia

namespace JustMedia

/-- The write pipeline of one accepted episode entry (episode upsert,
screenshot creation, link upsert), over the computed link, title and
screenshot list. -/
theorem episode_pipeline_facts (q : Option JVal) (now sn en : Int) (hpos : 0 < en)
    (st : SyncStore) (link title : Option JVal) (shots : List String) :
    (match link with
     | some l =>
       if l.truthy = true then
         eplink_update_or_create
           (shots.foldl (fun s u => screenshot_get_or_create s sn en u)
             (episode_update_or_create st sn en title)) sn en ⟨l, q, now⟩
       else
         shots.foldl (fun s u => screenshot_get_or_create s sn en u)
           (episode_update_or_create st sn en title)
     | none =>
       shots.foldl (fun s u => screenshot_get_or_create s sn en u)
         (episode_update_or_create st sn en title)).seasons = st.seasons ∧
    (∀ x ∈ (match link with
     | some l =>
       if l.truthy = true then
         eplink_update_or_create
           (shots.foldl (fun s u => screenshot_get_or_create s sn en u)
             (episode_update_or_create st sn en title)) sn en ⟨l, q, now⟩
       else
         shots.foldl (fun s u => screenshot_get_or_create s sn en u)
           (episode_update_or_create st sn en title)
     | none =>
       shots.foldl (fun s u => screenshot_get_or_create s sn en u)
         (episode_update_or_create st sn en title)).episodes,
      x ∈ st.episodes ∨ (x.1 = sn ∧ 0 < x.2.1)) ∧
    (∀ x ∈ (match link with
     | some l =>
       if l.truthy = true then
         eplink_update_or_create
           (shots.foldl (fun s u => screenshot_get_or_create s sn en u)
             (episode_update_or_create st sn en title)) sn en ⟨l, q, now⟩
       else
         shots.foldl (fun s u => screenshot_get_or_create s sn en u)
           (episode_update_or_create st sn en title)
     | none =>
       shots.foldl (fun s u => screenshot_get_or_create s sn en u)
         (episode_update_or_create st sn en title)).screenshots,
      x ∈ st.screenshots ∨ (x.1 = sn ∧ 0 < x.2.1)) ∧
    (∀ x ∈ (match link with
     | some l =>
       if l.truthy = true then
         eplink_update_or_create
           (shots.foldl (fun s u => screenshot_get_or_create s sn en u)
             (episode_update_or_create st sn en title)) sn en ⟨l, q, now⟩
       else
         shots.foldl (fun s u => screenshot_get_or_create s sn en u)
           (episode_update_or_create st sn en title)
     | none =>
       shots.foldl (fun s u => screenshot_get_or_create s sn en u)
         (episode_update_or_create st sn en title)).epLinks,
      x ∈ st.epLinks ∨ (x.1 = sn ∧ 0 < x.2.1)) := by
  obtain ⟨u1, u2, u3, u4⟩ := episode_uoc_facts st sn en title
  obtain ⟨f1, f2, f3, f4⟩ := shots_fold_facts sn en shots (episode_update_or_create st sn en title)
  have b1 : (shots.foldl (fun s u => screenshot_get_or_create s sn en u)
      (episode_update_or_create st sn en title)).seasons = st.seasons := by rw [f1, u1]
  have b2 : ∀ x ∈ (shots.foldl (fun s u => screenshot_get_or_create s sn en u)
      (episode_update_or_create st sn en title)).episodes,
      x ∈ st.episodes ∨ (x.1 = sn ∧ 0 < x.2.1) := by
    intro x hx
    rw [f2] at hx
    rcases u4 x hx with h | h
    · exact Or.inl h
    · exact Or.inr ⟨h.1, by omega⟩
  have b3 : ∀ x ∈ (shots.foldl (fun s u => screenshot_get_or_create s sn en u)
      (episode_update_or_create st sn en title)).screenshots,
      x ∈ st.screenshots ∨ (x.1 = sn ∧ 0 < x.2.1) := by
    intro x hx
    rcases f4 x hx with h | h
    · rw [u2] at h; exact Or.inl h
    · exact Or.inr ⟨h.1, by omega⟩
  have b4 : ∀ x ∈ (shots.foldl (fun s u => screenshot_get_or_create s sn en u)
      (episode_update_or_create st sn en title)).epLinks,
      x ∈ st.epLinks ∨ (x.1 = sn ∧ 0 < x.2.1) := by
    intro x hx
    rw [f3, u3] at hx
    exact Or.inl hx
  rcases link with _ | l
  · exact ⟨b1, b2, b3, b4⟩
  · by_cases htr : l.truthy = true
    · simp only [htr, if_true]
      obtain ⟨k1, k2, k3, k4⟩ := eplink_uoc_facts
        (shots.foldl (fun s u => screenshot_get_or_create s sn en u)
          (episode_update_or_create st sn en title)) sn en ⟨l, q, now⟩
      refine ⟨by rw [k1, b1], ?_, ?_, ?_⟩
      · intro x hx
        rw [k2] at hx
        exact b2 x hx
      · intro x hx
        rw [k3] at hx
        exact b3 x hx
      · intro x hx
        rcases k4 x hx with h | h
        · exact b4 x h
        · exact Or.inr ⟨h.1, by omega⟩
    · simp only [htr, if_false]
      exact ⟨b1, b2, b3, b4⟩

/-- One episode entry of the sync loop: seasons untouched; every
episode, screenshot or episode-link row it creates or rewrites carries a
positive episode number (an entry with a non-positive parsed number, or
an unparsable one, changes nothing). -/
theorem sync_episode_entry_facts (q : Option JVal) (now : Int) (sn : Int)
    (st : SyncStore) (e : String × JVal) :
    (sync_episode_entry q now sn st e).seasons = st.seasons ∧
    (∀ x ∈ (sync_episode_entry q now sn st e).episodes,
      x ∈ st.episodes ∨ (x.1 = sn ∧ 0 < x.2.1)) ∧
    (∀ x ∈ (sync_episode_entry q now sn st e).screenshots,
      x ∈ st.screenshots ∨ (x.1 = sn ∧ 0 < x.2.1)) ∧
    (∀ x ∈ (sync_episode_entry q now sn st e).epLinks,
      x ∈ st.epLinks ∨ (x.1 = sn ∧ 0 < x.2.1)) := by
  obtain ⟨key, c⟩ := e
  unfold sync_episode_entry
  rcases hp : pyInt? key with _ | en
  · exact ⟨rfl, fun x hx => Or.inl hx, fun x hx => Or.inl hx, fun x hx => Or.inl hx⟩
  · simp only
    by_cases hen : en ≤ 0
    · rw [if_pos hen]
      exact ⟨rfl, fun x hx => Or.inl hx, fun x hx => Or.inl hx, fun x hx => Or.inl hx⟩
    · rw [if_neg hen]
      exact episode_pipeline_facts q now sn en (by omega) st _ _ _

end JustMedia

namespace JustMedia

/-- The episode fold of one season entry: seasons untouched, and all
touched child rows carry the season's number and a positive episode
number. -/
theorem episodes_fold_facts (q : Option JVal) (now : Int) (sn : Int) :
    ∀ (eps : List (String × JVal)) (s0 : SyncStore),
    (eps.foldl (sync_episode_entry q now sn) s0).seasons = s0.seasons ∧
    (∀ x ∈ (eps.foldl (sync_episode_entry q now sn) s0).episodes,
      x ∈ s0.episodes ∨ (x.1 = sn ∧ 0 < x.2.1)) ∧
    (∀ x ∈ (eps.foldl (sync_episode_entry q now sn) s0).screenshots,
      x ∈ s0.screenshots ∨ (x.1 = sn ∧ 0 < x.2.1)) ∧
    (∀ x ∈ (eps.foldl (sync_episode_entry q now sn) s0).epLinks,
      x ∈ s0.epLinks ∨ (x.1 = sn ∧ 0 < x.2.1)) := by
  intro eps
  induction eps with
  | nil =>
    intro s0
    exact ⟨rfl, fun x hx => Or.inl hx, fun x hx => Or.inl hx, fun x hx => Or.inl hx⟩
  | cons a rest ih =>
    intro s0
    rw [List.foldl_cons]
    obtain ⟨i1, i2, i3, i4⟩ := ih (sync_episode_entry q now sn s0 a)
    obtain ⟨s1, s2, s3, s4⟩ := sync_episode_entry_facts q now sn s0 a
    refine ⟨by rw [i1, s1], ?_, ?_, ?_⟩
    · intro x hx
      rcases i2 x hx with h | h
      · exact s2 x h
      · exact Or.inr h
    · intro x hx
      rcases i3 x hx with h | h
      · exact s3 x h
      · exact Or.inr h
    · intro x hx
      rcases i4 x hx with h | h
      · exact s4 x h
      · exact Or.inr h

/-- One successful season entry of the sync loop: only season numbers
≥ −1 are added (a parsed number < −1, or an unparsable key, changes
nothing at all), existing seasons survive, children only gain rows with
positive episode numbers, and an entry whose parsed number is ≥ −1 does
create/keep its Season row.  A non-dict season content never yields a
`some` result — it raises. -/
theorem sync_season_entry_facts (q : Option JVal) (now : Int)
    (st : SyncStore) (entry : String × JVal) :
    ∀ res : SyncStore, sync_season_entry q now st entry = some res →
      (∀ n ∈ res.seasons, n ∈ st.seasons ∨ -1 ≤ n) ∧
      (∀ n ∈ st.seasons, n ∈ res.seasons) ∧
      (∀ x ∈ res.episodes, x ∈ st.episodes ∨ 0 < x.2.1) ∧
      (∀ x ∈ res.screenshots, x ∈ st.screenshots ∨ 0 < x.2.1) ∧
      (∀ x ∈ res.epLinks, x ∈ st.epLinks ∨ 0 < x.2.1) ∧
      (∀ sn : Int, pyInt? entry.1 = some sn → -1 ≤ sn → sn ∈ res.seasons) := by
  obtain ⟨key, c⟩ := entry
  unfold sync_season_entry
  rcases hp : pyInt? key with _ | sn
  · intro res hres
    simp only at hres
    obtain rfl := Option.some.inj hres
    refine ⟨fun n hn => Or.inl hn, fun n hn => hn, fun x hx => Or.inl hx,
      fun x hx => Or.inl hx, fun x hx => Or.inl hx, ?_⟩
    intro sn hsn
    exact Option.noConfusion hsn
  · simp only
    by_cases hlt : sn < -1
    · rw [if_pos hlt]
      intro res hres
      obtain rfl := Option.some.inj hres
      refine ⟨fun n hn => Or.inl hn, fun n hn => hn, fun x hx => Or.inl hx,
        fun x hx => Or.inl hx, fun x hx => Or.inl hx, ?_⟩
      intro sn2 hsn2 hge
      obtain rfl := Option.some.inj hsn2
      omega
    · rw [if_neg hlt]
      by_cases hobj : c.isObj = true
      · rw [if_neg (by rw [hobj]; simp), if_pos hobj]
        obtain ⟨g1, g2, g3, g4, g5, g6⟩ := season_goc_facts st sn
        have stage : ∀ res : SyncStore,
            (res.seasons = (season_get_or_create st sn).seasons ∧
             (∀ x ∈ res.episodes, x ∈ (season_get_or_create st sn).episodes ∨ (x.1 = sn ∧ 0 < x.2.1)) ∧
             (∀ x ∈ res.screenshots, x ∈ (season_get_or_create st sn).screenshots ∨ (x.1 = sn ∧ 0 < x.2.1)) ∧
             (∀ x ∈ res.epLinks, x ∈ (season_get_or_create st sn).epLinks ∨ (x.1 = sn ∧ 0 < x.2.1))) →
            ((∀ n ∈ res.seasons, n ∈ st.seasons ∨ -1 ≤ n) ∧
             (∀ n ∈ st.seasons, n ∈ res.seasons) ∧
             (∀ x ∈ res.episodes, x ∈ st.episodes ∨ 0 < x.2.1) ∧
             (∀ x ∈ res.screenshots, x ∈ st.screenshots ∨ 0 < x.2.1) ∧
             (∀ x ∈ res.epLinks, x ∈ st.epLinks ∨ 0 < x.2.1) ∧
             (∀ sn2 : Int, some sn = some sn2 → -1 ≤ sn2 → sn2 ∈ res.seasons)) := by
          intro res ⟨r1, r2, r3, r4⟩
          refine ⟨?_, ?_, ?_, ?_, ?_, ?_⟩
          · intro n hn
            rw [r1] at hn
            rcases g4 n hn with h | h
            · exact Or.inl h
            · subst h; right; omega
          · intro n hn
            rw [r1]
            exact g6 n hn
          · intro x hx
            rcases r2 x hx with h | h
            · rw [g1] at h; exact Or.inl h
            · exact Or.inr h.2
          · intro x hx
            rcases r3 x hx with h | h
            · rw [g2] at h; exact Or.inl h
            · exact Or.inr h.2
          · intro x hx
            rcases r4 x hx with h | h
            · rw [g3] at h; exact Or.inl h
            · exact Or.inr h.2
          · intro sn2 hsn2 hge
            obtain rfl := Option.some.inj hsn2
            rw [r1]
            exact g5
        rcases hj : c.get? "episodes" with _ | j
        · intro res hres
          simp only at hres
          obtain rfl := Option.some.inj hres
          exact stage _ ⟨rfl, fun x hx => Or.inl hx, fun x hx => Or.inl hx,
            fun x hx => Or.inl hx⟩
        · rcases j with _ | v | n | sv | xs | kvs
          · intro res hres
            simp only at hres
            obtain rfl := Option.some.inj hres
            exact stage _ ⟨rfl, fun x hx => Or.inl hx, fun x hx => Or.inl hx,
              fun x hx => Or.inl hx⟩
          · intro res hres
            simp only at hres
            obtain rfl := Option.some.inj hres
            exact stage _ ⟨rfl, fun x hx => Or.inl hx, fun x hx => Or.inl hx,
              fun x hx => Or.inl hx⟩
          · intro res hres
            simp only at hres
            obtain rfl := Option.some.inj hres
            exact stage _ ⟨rfl, fun x hx => Or.inl hx, fun x hx => Or.inl hx,
              fun x hx => Or.inl hx⟩
          · intro res hres
            simp only at hres
            obtain rfl := Option.some.inj hres
            exact stage _ ⟨rfl, fun x hx => Or.inl hx, fun x hx => Or.inl hx,
              fun x hx => Or.inl hx⟩
          · intro res hres
            simp only at hres
            obtain rfl := Option.some.inj hres
            exact stage _ ⟨rfl, fun x hx => Or.inl hx, fun x hx => Or.inl hx,
              fun x hx => Or.inl hx⟩
          · simp only
            by_cases he : (kvs : List (String × JVal)).isEmpty = true
            · rw [if_pos he]
              intro res hres
              obtain rfl := Option.some.inj hres
              exact stage _ ⟨rfl, fun x hx => Or.inl hx, fun x hx => Or.inl hx,
                fun x hx => Or.inl hx⟩
            · rw [if_neg he]
              intro res hres
              obtain rfl := Option.some.inj hres
              exact stage _ (episodes_fold_facts q now sn kvs (season_get_or_create st sn))
      · have hobj2 : c.isObj = false := by
          cases hv : c.isObj with
          | false => rfl
          | true => exact absurd hv hobj
        rw [if_pos (by rw [hobj2]; rfl)]
        intro res hres
        exact Option.noConfusion hres

end JustMedia

namespace JustMedia

/-- The variant fold on the empty entry list. -/
theorem sync_seasons_nil (q : Option JVal) (now : Int) (st : SyncStore) :
    sync_seasons q now st [] = some st := rfl

/-- One step of the variant fold: a raising entry aborts the rest. -/
theorem sync_seasons_cons (q : Option JVal) (now : Int) (st : SyncStore)
    (e : String × JVal) (rest : List (String × JVal)) :
    sync_seasons q now st (e :: rest) =
      match sync_season_entry q now st e with
      | none => none
      | some st1 => sync_seasons q now st1 rest := rfl

/-- A property carried by every successful entry step survives a
completed variant fold. -/
theorem sync_seasons_preserve (P : SyncStore → Prop) (q : Option JVal) (now : Int)
    (hstep : ∀ s a s₂, sync_season_entry q now s a = some s₂ → P s → P s₂) :
    ∀ (entries : List (String × JVal)) (s s₁ : SyncStore),
      sync_seasons q now s entries = some s₁ → P s → P s₁ := by
  intro entries
  induction entries with
  | nil =>
    intro s s₁ h hP
    rw [sync_seasons_nil] at h
    obtain rfl := Option.some.inj h
    exact hP
  | cons a rest ih =>
    intro s s₁ h hP
    rw [sync_seasons_cons] at h
    rcases hstepv : sync_season_entry q now s a with _ | st1
    · rw [hstepv] at h
      exact Option.noConfusion h
    · rw [hstepv] at h
      simp only at h
      exact ih st1 s₁ h (hstep s a st1 hstepv hP)

/-- Season membership survives a completed variant fold. -/
theorem sync_seasons_mono (q : Option JVal) (now : Int) (sn : Int)
    (entries : List (String × JVal)) (s s₁ : SyncStore)
    (hrun : sync_seasons q now s entries = some s₁) (hs : sn ∈ s.seasons) :
    sn ∈ s₁.seasons :=
  sync_seasons_preserve (fun z => sn ∈ z.seasons) q now
    (fun z a z₂ hz hP => (sync_season_entry_facts q now z a z₂ hz).2.1 sn hP)
    entries s s₁ hrun hs

/-- A season entry whose key parses to a number ≥ −1 leaves its Season
row present after a completed variant. -/
theorem sync_seasons_accept (q : Option JVal) (now : Int) :
    ∀ (entries : List (String × JVal)) (s s₁ : SyncStore) (key : String) (c : JVal) (sn : Int),
      sync_seasons q now s entries = some s₁ →
      (key, c) ∈ entries → pyInt? key = some sn → -1 ≤ sn →
      sn ∈ s₁.seasons := by
  intro entries
  induction entries with
  | nil =>
    intro s s₁ key c sn hrun hmem
    exact absurd hmem (List.not_mem_nil _)
  | cons a rest ih =>
    intro s s₁ key c sn hrun hmem hp hge
    rw [sync_seasons_cons] at hrun
    rcases hstepv : sync_season_entry q now s a with _ | st1
    · rw [hstepv] at hrun
      exact Option.noConfusion hrun
    · rw [hstepv] at hrun
      simp only at hrun
      rcases List.mem_cons.mp hmem with heq | hmem2
      · subst heq
        exact sync_seasons_mono q now sn rest st1 s₁ hrun
          ((sync_season_entry_facts q now s (key, c) st1 hstepv).2.2.2.2.2 sn hp hge)
      · exact ih st1 s₁ key c sn hrun hmem2 hp hge

/-- C8: over one translation variant that the synchronizer completes
(a non-dict season content raises `AttributeError` at the unconditional
`season_content.get('link')` instead, aborting the whole item), a season
entry whose parsed number is < −1 creates no Season row (every season
number present after the run was already there or is ≥ −1), while parsed
numbers −1 and 0 are accepted (their Season rows exist afterwards); and
every Episode, Screenshot or episode-scoped link row keyed by an episode
number ≤ 0 was already in the store — entries with non-positive episode
numbers create and touch nothing. -/
theorem C8_season_episode_validation (q : Option JVal) (now : Int)
    (st st1 : SyncStore) (entries : List (String × JVal))
    (hrun : sync_seasons q now st entries = some st1) :
    (∀ n ∈ st1.seasons, n ∈ st.seasons ∨ -1 ≤ n) ∧
    (∀ x ∈ st1.episodes, x.2.1 ≤ 0 → x ∈ st.episodes) ∧
    (∀ x ∈ st1.screenshots, x.2.1 ≤ 0 → x ∈ st.screenshots) ∧
    (∀ x ∈ st1.epLinks, x.2.1 ≤ 0 → x ∈ st.epLinks) ∧
    (∀ c : JVal, ("-1", c) ∈ entries → (-1 : Int) ∈ st1.seasons) ∧
    (∀ c : JVal, ("0", c) ∈ entries → (0 : Int) ∈ st1.seasons) := by
  have main := sync_seasons_preserve
    (fun z => (∀ n ∈ z.seasons, n ∈ st.seasons ∨ -1 ≤ n) ∧
      (∀ x ∈ z.episodes, x ∈ st.episodes ∨ 0 < x.2.1) ∧
      (∀ x ∈ z.screenshots, x ∈ st.screenshots ∨ 0 < x.2.1) ∧
      (∀ x ∈ z.epLinks, x ∈ st.epLinks ∨ 0 < x.2.1))
    q now
    (by
      intro s a s₂ hstepv hP
      obtain ⟨p1, p2, p3, p4⟩ := hP
      obtain ⟨f1, _, f3, f4, f5, _⟩ := sync_season_entry_facts q now s a s₂ hstepv
      refine ⟨?_, ?_, ?_, ?_⟩
      · intro n hn
        rcases f1 n hn with h | h
        · exact p1 n h
        · exact Or.inr h
      · intro x hx
        rcases f3 x hx with h | h
        · exact p2 x h
        · exact Or.inr h
      · intro x hx
        rcases f4 x hx with h | h
        · exact p3 x h
        · exact Or.inr h
      · intro x hx
        rcases f5 x hx with h | h
        · exact p4 x h
        · exact Or.inr h)
    entries st st1 hrun
    ⟨fun n hn => Or.inl hn, fun x hx => Or.inl hx, fun x hx => Or.inl hx,
     fun x hx => Or.inl hx⟩
  obtain ⟨m1, m2, m3, m4⟩ := main
  refine ⟨m1, ?_, ?_, ?_, ?_, ?_⟩
  · intro x hx hle
    rcases m2 x hx with h | h
    · exact h
    · omega
  · intro x hx hle
    rcases m3 x hx with h | h
    · exact h
    · omega
  · intro x hx hle
    rcases m4 x hx with h | h
    · exact h
    · omega
  · intro c hmem
    exact sync_seasons_accept q now entries st st1 "-1" c (-1) hrun hmem (by decide) (by omega)
  · intro c hmem
    exact sync_seasons_accept q now entries st st1 "0" c 0 hrun hmem (by decide) (by omega)

/-- C8 counterexample to the unconditional reading: a "-1" season entry
whose content is a plain string hits the unconditional
`season_content.get('link')` (`AttributeError`), so the run aborts with
no writes — season number −1 is not accepted here, and no Season row is
created. -/
theorem C8_counterexample :
    sync_seasons none 0 ⟨[], [], [], []⟩ [("-1", JVal.s "x")] = none := rfl

theorem C8_season_episode_validation_witness :
    (∀ n ∈ ((⟨[-1, 0], [], [], []⟩ : SyncStore)).seasons,
        n ∈ ((⟨[], [], [], []⟩ : SyncStore)).seasons ∨ -1 ≤ n) ∧
    (∀ x ∈ ((⟨[-1, 0], [], [], []⟩ : SyncStore)).episodes, x.2.1 ≤ 0 →
        x ∈ ((⟨[], [], [], []⟩ : SyncStore)).episodes) ∧
    (∀ x ∈ ((⟨[-1, 0], [], [], []⟩ : SyncStore)).screenshots, x.2.1 ≤ 0 →
        x ∈ ((⟨[], [], [], []⟩ : SyncStore)).screenshots) ∧
    (∀ x ∈ ((⟨[-1, 0], [], [], []⟩ : SyncStore)).epLinks, x.2.1 ≤ 0 →
        x ∈ ((⟨[], [], [], []⟩ : SyncStore)).epLinks) ∧
    (∀ c : JVal, ("-1", c) ∈ ([("-1", JVal.obj []), ("0", JVal.obj [])] :
        List (String × JVal)) → (-1 : Int) ∈ ((⟨[-1, 0], [], [], []⟩ : SyncStore)).seasons) ∧
    (∀ c : JVal, ("0", c) ∈ ([("-1", JVal.obj []), ("0", JVal.obj [])] :
        List (String × JVal)) → (0 : Int) ∈ ((⟨[-1, 0], [], [], []⟩ : SyncStore)).seasons) :=
  C8_season_episode_validation none 0 ⟨[], [], [], []⟩ ⟨[-1, 0], [], [], []⟩
    [("-1", JVal.obj []), ("0", JVal.obj [])] rfl

end JustMedia

namespace JustMedia

/-- `update_or_create` rewrites every row with the target key, so the
first row found afterwards carries the new defaults. -/
theorem find_map_title :
    ∀ (l : List (Int × Int × Option JVal)) (sn en : Int) (title : Option JVal),
      l.any (fun e => e.1 == sn && e.2.1 == en) = true →
      (l.map (fun e => if e.1 == sn && e.2.1 == en then (e.1, e.2.1, title) else e)).find?
        (fun e => e.1 == sn && e.2.1 == en) = some (sn, en, title) := by
  intro l
  induction l with
  | nil => intro sn en title h; simp at h
  | cons e rest ih =>
    intro sn en title hany
    by_cases hk : (e.1 == sn && e.2.1 == en) = true
    · rw [List.map_cons, if_pos hk]
      rw [@List.find?_cons_of_pos _ (fun e => e.1 == sn && e.2.1 == en) (e.1, e.2.1, title) _ hk]
      obtain ⟨h1, h2⟩ := Bool.and_eq_true_iff.mp hk
      rw [beq_iff_eq] at h1 h2
      rw [h1, h2]
    · rw [List.map_cons, if_neg hk]
      rw [@List.find?_cons_of_neg _ (fun e => e.1 == sn && e.2.1 == en) e _ hk]
      apply ih
      simp only [List.any_cons, hk, Bool.false_or] at hany
      exact hany

/-- The stored title after `Episode.objects.update_or_create` on an
existing row is exactly the applied defaults title. -/
theorem episode_uoc_title (st : SyncStore) (sn en : Int) (title : Option JVal)
    (hex : st.episodes.any (fun e => e.1 == sn && e.2.1 == en) = true) :
    episode_title? (episode_update_or_create st sn en title) sn en = some title := by
  unfold episode_update_or_create episode_title?
  rw [if_pos hex]
  simp only
  rw [find_map_title st.episodes sn en title hex]
  rfl

/-- The episode rows after one accepted episode entry are exactly those
of its `Episode.update_or_create` step (screenshot and link writes do
not touch them). -/
theorem sync_episode_entry_episodes (q : Option JVal) (now : Int) (sn : Int)
    (st : SyncStore) (key : String) (c : JVal) (en : Int)
    (hen : pyInt? key = some en) (hpos : 0 < en) :
    (sync_episode_entry q now sn st (key, c)).episodes =
      (episode_update_or_create st sn en
        (match c with | .obj _ => c.get? "title" | _ => none)).episodes := by
  unfold sync_episode_entry
  rw [hen]
  simp only
  rw [if_neg (by omega : ¬ en ≤ 0)]
  rcases c with _ | v | n | sv | xs | kvs
  · exact rfl
  · exact rfl
  · exact rfl
  · -- plain link string: title none, shots [], link some (.s sv)
    simp only
    by_cases htr : (JVal.s sv).truthy = true
    · rw [if_pos htr]
      exact (eplink_uoc_facts _ sn en _).2.1
    · rw [if_neg htr]
      exact rfl
  · exact rfl
  · -- dict-shaped entry
    simp only
    rcases hl : (JVal.obj kvs).get? "link" with _ | lv
    · exact (shots_fold_facts sn en _ _).2.1
    · simp only
      by_cases htr : lv.truthy = true
      · rw [if_pos htr]
        rw [(eplink_uoc_facts _ sn en _).2.1]
        exact (shots_fold_facts sn en _ _).2.1
      · rw [if_neg htr]
        exact (shots_fold_facts sn en _ _).2.1

end JustMedia

namespace JustMedia

/-- C10: the synchronizer re-applies the episode title through
update-or-create on every run.  For an already-existing Episode row
(sn, en) with any stored title, processing a variant whose episode entry
is a plain link string completes and leaves the stored title null, and
a dict-shaped entry leaves exactly the payload's title value — the
previously stored title is never merely preserved. -/
theorem C10_episode_title_overwrite (q : Option JVal) (now : Int) (st : SyncStore)
    (sStr eStr : String) (sn en : Int) (c : JVal) (t0 : Option JVal)
    (hsn : pyInt? sStr = some sn) (hge : -1 ≤ sn)
    (hen : pyInt? eStr = some en) (hpos : 0 < en)
    (hex : (sn, en, t0) ∈ st.episodes) :
    (∀ l : String, c = .s l →
      (sync_seasons q now st [(sStr, .obj [("episodes", .obj [(eStr, c)])])]).map
          (fun s => episode_title? s sn en) = some (some none)) ∧
    (∀ kvs : List (String × JVal), c = .obj kvs →
      (sync_seasons q now st [(sStr, .obj [("episodes", .obj [(eStr, c)])])]).map
          (fun s => episode_title? s sn en) = some (some (c.get? "title"))) := by
  have hpipe : sync_seasons q now st [(sStr, .obj [("episodes", .obj [(eStr, c)])])] =
      some (sync_episode_entry q now sn (season_get_or_create st sn) (eStr, c)) := by
    rw [sync_seasons_cons]
    have hstepv : sync_season_entry q now st
        (sStr, .obj [("episodes", .obj [(eStr, c)])]) =
        some (sync_episode_entry q now sn (season_get_or_create st sn) (eStr, c)) := by
      unfold sync_season_entry
      rw [hsn]
      simp only
      rw [if_neg (by omega : ¬ sn < -1)]
      rfl
    rw [hstepv]
    simp only
    exact sync_seasons_nil q now _
  have hany : (season_get_or_create st sn).episodes.any
      (fun e => e.1 == sn && e.2.1 == en) = true := by
    rw [(season_goc_facts st sn).1]
    exact List.any_eq_true.mpr ⟨(sn, en, t0), hex, by simp⟩
  constructor
  · intro l hc
    subst hc
    rw [hpipe, Option.map_some']
    refine congrArg some ?_
    unfold episode_title?
    rw [sync_episode_entry_episodes q now sn _ eStr (.s l) en hen hpos]
    have hfin := episode_uoc_title (season_get_or_create st sn) sn en none hany
    unfold episode_title? at hfin
    exact hfin
  · intro kvs hc
    subst hc
    rw [hpipe, Option.map_some']
    refine congrArg some ?_
    unfold episode_title?
    rw [sync_episode_entry_episodes q now sn _ eStr (.obj kvs) en hen hpos]
    have hfin := episode_uoc_title (season_get_or_create st sn) sn en
      ((JVal.obj kvs).get? "title") hany
    unfold episode_title? at hfin
    exact hfin

/-- C10 witness: an Episode (1, 2) stored with title "Old"; a variant
whose episode entry is the plain string "//link" completes and rewrites
the title to null. -/
theorem C10_episode_title_overwrite_witness :
    (sync_seasons none 9 ⟨[1], [(1, 2, some (.s "Old"))], [], []⟩
        [("1", .obj [("episodes", .obj [("2", .s "//link")])])]).map
      (fun s => episode_title? s 1 2) = some (some none) :=
  (C10_episode_title_overwrite none 9 ⟨[1], [(1, 2, some (.s "Old"))], [], []⟩
    "1" "2" 1 2 (.s "//link") (some (.s "Old"))
    (by decide) (by omega) (by decide) (by omega)
    (by simp)).1 "//link" rfl

end JustMedia

namespace JustMedia

/-- A value that `dict.get` returns is never the JSON null (null keys
collapse to Python `None`). -/
theorem get?_ne_null (j : JVal) (k : String) (v : JVal) (h : j.get? k = some v) :
    v ≠ JVal.null := by
  intro hv
  subst hv
  rcases j with _ | b | n | sv | xs | kvs
  · exact Option.noConfusion h
  · exact Option.noConfusion h
  · exact Option.noConfusion h
  · exact Option.noConfusion h
  · exact Option.noConfusion h
  · simp only [JVal.get?] at h
    rcases hf : kvs.find? (fun p => p.1 == k) with _ | p
    · rw [hf] at h
      exact Option.noConfusion h
    · obtain ⟨k2, v2⟩ := p
      rcases v2 with _ | b2 | n2 | sv2 | xs2 | kvs2 <;> rw [hf] at h <;> simp at h

/-- The empty-string cleanup keeps only present values, and never keeps
the empty string. -/
theorem cleanEmptyStr_facts (x : Option JVal) (v : JVal) (h : cleanEmptyStr x = some v) :
    x = some v ∧ v ≠ JVal.s "" := by
  unfold cleanEmptyStr at h
  split at h
  · exact Option.noConfusion h
  · refine ⟨h, ?_⟩
    intro hc
    subst hc
    rename_i hne
    exact hne h

/-- The material-data override yields the prior value or a non-empty
string. -/
theorem material_override_facts (m : JVal) (k : String) (prior : Option JVal) (v : JVal)
    (h : material_override m k prior = some v) :
    prior = some v ∨ ∃ s : String, s ≠ "" ∧ v = JVal.s s := by
  unfold material_override at h
  split at h
  · rename_i s heq
    by_cases hs : (s != "") = true
    · rw [if_pos hs] at h
      right
      exact ⟨s, by simpa using hs, (Option.some.inj h).symm⟩
    · rw [if_neg hs] at h
      exact Or.inl h
  · exact Or.inl h

/-- A truthy JSON value is not null. -/
theorem truthy_ne_null (v : JVal) (h : v.truthy = true) : v ≠ JVal.null := by
  intro hv
  subst hv
  simp [JVal.truthy] at h

/-- A truthy JSON value is not the empty string. -/
theorem truthy_ne_empty (v : JVal) (h : v.truthy = true) : v ≠ JVal.s "" := by
  intro hv
  subst hv
  simp [JVal.truthy] at h

end JustMedia

namespace JustMedia

/-- C7: the mapper returns null exactly when the raw item is not a
truthy dict carrying an 'id' key, or the title — with a falsy primary
title falling back to the original title before the check — is not
usable (truthy); every other input yields a record. -/
theorem C7_mapper_none_iff (j : JVal) :
    map_kodik_item_to_models j = none ↔
      ((!j.truthy || !j.isObj || !j.hasKey "id") = true ∨
       oTruthy (if !oTruthy (j.get? "title") && oTruthy (j.get? "title_orig")
                then j.get? "title_orig" else j.get? "title") = false) := by
  unfold map_kodik_item_to_models
  by_cases h1 : (!j.truthy || !j.isObj || !j.hasKey "id") = true
  · rw [if_pos h1]
    simp [h1]
  · rw [if_neg h1]
    simp only
    set T := if !oTruthy (j.get? "title") && oTruthy (j.get? "title_orig")
        then j.get? "title_orig" else j.get? "title" with hT
    by_cases h2 : oTruthy T = true
    · rw [if_neg (show ¬ (!oTruthy T) = true by rw [h2]; simp)]
      simp [h1, h2]
    · have h2f : oTruthy T = false := Bool.eq_false_iff.mpr h2
      rw [if_pos (show (!oTruthy T) = true by rw [h2f]; rfl)]
      simp [h2f]

end JustMedia

namespace JustMedia

/-- C9 (amended): whenever the mapper returns a record, no value of
`media_item_data` is the JSON null, and none of the four external-id
keys nor `original_title` carries the empty string (an empty-string id
is normalized to absent, so identity resolution treats it as missing).
(The empty string can still appear under other keys, e.g.
`description` — see the counterexample.) -/
theorem C9_mapper_empty_ids_normalized (j : JVal) (out : MappedOut)
    (hmap : map_kodik_item_to_models j = some out) :
    ∀ kv ∈ out.media_item_data,
      kv.2 ≠ JVal.null ∧
      ((kv.1 = "kinopoisk_id" ∨ kv.1 = "imdb_id" ∨ kv.1 = "shikimori_id" ∨
        kv.1 = "mydramalist_id" ∨ kv.1 = "original_title") → kv.2 ≠ JVal.s "") := by
  unfold map_kodik_item_to_models at hmap
  by_cases h1 : (!j.truthy || !j.isObj || !j.hasKey "id") = true
  · rw [if_pos h1] at hmap
    exact absurd hmap (by simp)
  · rw [if_neg h1] at hmap
    simp only at hmap
    set T := if !oTruthy (j.get? "title") && oTruthy (j.get? "title_orig")
        then j.get? "title_orig" else j.get? "title" with hT
    by_cases h2 : oTruthy T = true
    case neg =>
      have h2f : oTruthy T = false := Bool.eq_false_iff.mpr h2
      rw [if_pos (show (!oTruthy T) = true by rw [h2f]; rfl)] at hmap
      exact absurd hmap (by simp)
    case pos =>
      rw [if_neg (show ¬ (!oTruthy T) = true by rw [h2]; simp)] at hmap
      set M := ((j.get? "material_data").getD JVal.null) with hM
      obtain rfl := Option.some.inj hmap
      intro kv hkv
      simp only [assocDropNone] at hkv
      obtain ⟨⟨k, vo⟩, hpmem, hpf⟩ := List.mem_filterMap.mp hkv
      rcases vo with _ | v
      · simp at hpf
      · simp only [Option.map_some'] at hpf
        obtain rfl := Option.some.inj hpf
        have hIdT : ∀ (mkey skey : String) (w : JVal),
            material_override M mkey (cleanEmptyStr (j.get? skey)) = some w →
            w ≠ JVal.null ∧ w ≠ JVal.s "" := by
          intro mkey skey w hw
          rcases material_override_facts M mkey _ w hw with hp | ⟨s, hs, rfl⟩
          · obtain ⟨hsub, hne⟩ := cleanEmptyStr_facts _ w hp
            exact ⟨get?_ne_null j skey w hsub, hne⟩
          · exact ⟨fun hc => JVal.noConfusion hc, fun hc => hs (JVal.s.inj hc)⟩
        have hIdF : ∀ (skey : String) (w : JVal),
            cleanEmptyStr (j.get? skey) = some w →
            w ≠ JVal.null ∧ w ≠ JVal.s "" := by
          intro skey w hw
          obtain ⟨hsub, hne⟩ := cleanEmptyStr_facts _ w hw
          exact ⟨get?_ne_null j skey w hsub, hne⟩
        have hGss : ∀ (mkey : String) (w : JVal),
            (get_safe_string M mkey).map JVal.s = some w → w ≠ JVal.null := by
          intro mkey w hw
          rcases hg : get_safe_string M mkey with _ | s
          · rw [hg] at hw
            exact absurd hw (by simp)
          · rw [hg] at hw
            simp only [Option.map_some'] at hw
            obtain rfl := Option.some.inj hw
            exact fun hc => JVal.noConfusion hc
        by_cases hm : (M.truthy && M.isObj) = true
        · simp only [hm, if_true, List.mem_append, List.mem_cons, List.not_mem_nil,
            or_false, Prod.mk.injEq] at hpmem
          rcases hpmem with ⟨⟨rfl, hv⟩ | ⟨rfl, hv⟩ | ⟨rfl, hv⟩ | ⟨rfl, hv⟩ | ⟨rfl, hv⟩ |
            ⟨rfl, hv⟩ | ⟨rfl, hv⟩ | ⟨rfl, hv⟩⟩ | ⟨⟨rfl, hv⟩ | ⟨rfl, hv⟩⟩
          · -- title
            have htr : v.truthy = true := by rw [← hv] at h2; exact h2
            exact ⟨truthy_ne_null v htr, fun hk => by simp at hk⟩
          · -- original_title
            obtain ⟨hne1, hne2⟩ := hIdF "title_orig" v hv.symm
            exact ⟨hne1, fun _ => hne2⟩
          · -- release_year
            exact ⟨get?_ne_null j "year" v hv.symm, fun hk => by simp at hk⟩
          · -- media_type
            obtain rfl := Option.some.inj hv.symm
            exact ⟨fun hc => JVal.noConfusion hc, fun hk => by simp at hk⟩
          · -- kinopoisk_id
            obtain ⟨hne1, hne2⟩ := hIdT "kinopoisk_id" "kinopoisk_id" v hv.symm
            exact ⟨hne1, fun _ => hne2⟩
          · -- imdb_id
            obtain ⟨hne1, hne2⟩ := hIdT "imdb_id" "imdb_id" v hv.symm
            exact ⟨hne1, fun _ => hne2⟩
          · -- shikimori_id
            obtain ⟨hne1, hne2⟩ := hIdT "shikimori_id" "shikimori_id" v hv.symm
            exact ⟨hne1, fun _ => hne2⟩
          · -- mydramalist_id
            obtain ⟨hne1, hne2⟩ := hIdT "mydramalist_id" "mdl_id" v hv.symm
            exact ⟨hne1, fun _ => hne2⟩
          · -- description
            exact ⟨hGss "description" v hv.symm, fun hk => by simp at hk⟩
          · -- poster_url
            exact ⟨hGss "poster_url" v hv.symm, fun hk => by simp at hk⟩
        · have hmf : (M.truthy && M.isObj) = false := Bool.eq_false_iff.mpr hm
          simp only [hmf, Bool.false_eq_true, if_false, List.append_nil, List.mem_cons,
            List.not_mem_nil, or_false, Prod.mk.injEq] at hpmem
          rcases hpmem with ⟨rfl, hv⟩ | ⟨rfl, hv⟩ | ⟨rfl, hv⟩ | ⟨rfl, hv⟩ |
            ⟨rfl, hv⟩ | ⟨rfl, hv⟩ | ⟨rfl, hv⟩ | ⟨rfl, hv⟩
          · have htr : v.truthy = true := by rw [← hv] at h2; exact h2
            exact ⟨truthy_ne_null v htr, fun hk => by simp at hk⟩
          · obtain ⟨hne1, hne2⟩ := hIdF "title_orig" v hv.symm
            exact ⟨hne1, fun _ => hne2⟩
          · exact ⟨get?_ne_null j "year" v hv.symm, fun hk => by simp at hk⟩
          · obtain rfl := Option.some.inj hv.symm
            exact ⟨fun hc => JVal.noConfusion hc, fun hk => by simp at hk⟩
          · obtain ⟨hne1, hne2⟩ := hIdF "kinopoisk_id" v hv.symm
            exact ⟨hne1, fun _ => hne2⟩
          · obtain ⟨hne1, hne2⟩ := hIdF "imdb_id" v hv.symm
            exact ⟨hne1, fun _ => hne2⟩
          · obtain ⟨hne1, hne2⟩ := hIdF "shikimori_id" v hv.symm
            exact ⟨hne1, fun _ => hne2⟩
          · obtain ⟨hne1, hne2⟩ := hIdF "mdl_id" v hv.symm
            exact ⟨hne1, fun _ => hne2⟩

end JustMedia

namespace JustMedia

/-- C9 counterexample to the claim as stated: with a material block
carrying an empty-string description, `media_item_data` does contain the
empty string as a value (under "description"), so "never contains an
empty-string value for any field" is false. -/
theorem C9_counterexample :
    (map_kodik_item_to_models (JVal.obj [("id", JVal.s "x"), ("title", JVal.s "T"),
        ("material_data", JVal.obj [("description", JVal.s "")])])).map
        MappedOut.media_item_data =
      some [("title", JVal.s "T"), ("media_type", JVal.s "unknown"),
            ("description", JVal.s "")] ∧
    ("description", JVal.s "") ∈
      [("title", JVal.s "T"), ("media_type", JVal.s "unknown"),
       ("description", JVal.s "")] := by
  constructor
  · rfl
  · simp

/-- C9 witness: the amended theorem applied to a record whose raw
kinopoisk id is the empty string. -/
theorem C9_mapper_empty_ids_normalized_witness : JVal.s "T" ≠ JVal.null :=
  (C9_mapper_empty_ids_normalized
    (JVal.obj [("id", JVal.s "x"), ("title", JVal.s "T"), ("kinopoisk_id", JVal.s "")])
    { media_item_data := [("title", JVal.s "T"), ("media_type", JVal.s "unknown")],
      genres := [], countries := [], main_source_link_data := none, seasons_data := none }
    rfl ("title", JVal.s "T") (by simp)).1

end JustMedia

namespace JustMedia

/-- `meta_get_or_create` never touches the item rows or tables. -/
theorem meta_goc_items (st : Store) (pk : Nat) (dflt : Option Int) :
    (meta_get_or_create st pk dflt).1.items = st.items ∧
    (meta_get_or_create st pk dflt).1.genreTable = st.genreTable ∧
    (meta_get_or_create st pk dflt).1.countryTable = st.countryTable := by
  unfold meta_get_or_create
  rcases meta_find st pk with _ | v
  · exact ⟨rfl, rfl, rfl⟩
  · exact ⟨rfl, rfl, rfl⟩

/-- `update_metadata` never touches the item rows or tables. -/
theorem update_metadata_items (st : Store) (pk : Nat) (t : Int) (mc : Bool) :
    (update_metadata st pk t mc).items = st.items ∧
    (update_metadata st pk t mc).genreTable = st.genreTable ∧
    (update_metadata st pk t mc).countryTable = st.countryTable := by
  obtain ⟨h1, h2, h3⟩ := meta_goc_items st pk (some t)
  unfold update_metadata meta_set
  simp only
  by_cases hc : (!(meta_get_or_create st pk (some t)).2.2 &&
      ((meta_get_or_create st pk (some t)).2.1 != some t || mc)) = true
  · rw [if_pos hc]
    exact ⟨h1, h2, h3⟩
  · rw [if_neg hc]
    exact ⟨h1, h2, h3⟩

/-- The two conditional relation writes of the M2M pass keep every
non-relation field of the row. -/
theorem cond2_facts (x : Item) (gs cs : List String) (b c : Bool) :
    (if c = true then
       { (if b = true then { x with genres := gs } else x) with countries := cs }
     else (if b = true then { x with genres := gs } else x)).pk = x.pk ∧
    (∀ f : IdField,
      (if c = true then
         { (if b = true then { x with genres := gs } else x) with countries := cs }
       else (if b = true then { x with genres := gs } else x)).getId f = x.getId f) ∧
    (if c = true then
       { (if b = true then { x with genres := gs } else x) with countries := cs }
     else (if b = true then { x with genres := gs } else x)).title = x.title ∧
    (if c = true then
       { (if b = true then { x with genres := gs } else x) with countries := cs }
     else (if b = true then { x with genres := gs } else x)).original_title = x.original_title ∧
    (if c = true then
       { (if b = true then { x with genres := gs } else x) with countries := cs }
     else (if b = true then { x with genres := gs } else x)).media_type = x.media_type ∧
    (if c = true then
       { (if b = true then { x with genres := gs } else x) with countries := cs }
     else (if b = true then { x with genres := gs } else x)).release_year = x.release_year ∧
    (if c = true then
       { (if b = true then { x with genres := gs } else x) with countries := cs }
     else (if b = true then { x with genres := gs } else x)).description = x.description ∧
    (if c = true then
       { (if b = true then { x with genres := gs } else x) with countries := cs }
     else (if b = true then { x with genres := gs } else x)).poster_url = x.poster_url := by
  cases b <;> cases c <;>
    exact ⟨rfl, fun f => by cases f <;> rfl, rfl, rfl, rfl, rfl, rfl, rfl⟩

/-- The M2M pass: the store's rows become the relation-refreshed item
written back by pk; the written item keeps its pk, ids and data
fields. -/
theorem m2m_facts (st : Store) (item : Item) (gn cn : List String) :
    (update_m2m_relations st item gn cn).2.1.pk = item.pk ∧
    (∀ f : IdField, (update_m2m_relations st item gn cn).2.1.getId f = item.getId f) ∧
    (update_m2m_relations st item gn cn).1.items =
      replace_item st.items (update_m2m_relations st item gn cn).2.1 ∧
    (update_m2m_relations st item gn cn).1.meta = st.meta ∧
    (update_m2m_relations st item gn cn).2.1.title = item.title ∧
    (update_m2m_relations st item gn cn).2.1.original_title = item.original_title ∧
    (update_m2m_relations st item gn cn).2.1.media_type = item.media_type ∧
    (update_m2m_relations st item gn cn).2.1.release_year = item.release_year ∧
    (update_m2m_relations st item gn cn).2.1.description = item.description ∧
    (update_m2m_relations st item gn cn).2.1.poster_url = item.poster_url := by
  unfold update_m2m_relations
  simp only
  exact ⟨(cond2_facts item _ _ _ _).1, (cond2_facts item _ _ _ _).2.1, by trivial, by trivial,
    (cond2_facts item _ _ _ _).2.2.1, (cond2_facts item _ _ _ _).2.2.2.1,
    (cond2_facts item _ _ _ _).2.2.2.2.1, (cond2_facts item _ _ _ _).2.2.2.2.2.1,
    (cond2_facts item _ _ _ _).2.2.2.2.2.2.1, (cond2_facts item _ _ _ _).2.2.2.2.2.2.2⟩

/-- Membership in a written-back row list. -/
theorem mem_replace (l : List Item) (i' c : Item) (hc : c ∈ replace_item l i') :
    c = i' ∨ (c ∈ l ∧ c.pk ≠ i'.pk) := by
  unfold replace_item at hc
  obtain ⟨x, hx, hxc⟩ := List.mem_map.mp hc
  by_cases hpk : x.pk = i'.pk
  · rw [if_pos hpk] at hxc
    exact Or.inl hxc.symm
  · rw [if_neg hpk] at hxc
    subst hxc
    exact Or.inr ⟨hx, hpk⟩

/-- What a passed save-time uniqueness check says. -/
theorem ids_unique_spec (l : List Item) (i' : Item)
    (h : ids_unique_against l i' = true) :
    ∀ f ∈ idFields, ∀ v : String, i'.getId f = some v →
      ∀ o ∈ l, o.pk ≠ i'.pk → o.getId f ≠ some v := by
  intro f hf v hv o ho hpk
  unfold ids_unique_against at h
  have hfa := List.all_eq_true.mp h f hf
  rw [hv] at hfa
  simp only at hfa
  have hgo := List.all_eq_true.mp hfa o ho
  rcases Bool.or_eq_true_iff.mp hgo with hh | hh
  · exact absurd (beq_iff_eq.mp hh) hpk
  · simpa using hh

/-- Writing back a row whose non-null ids conflict with no other-pk row
preserves the uniqueness invariant. -/
theorem uniq_replace (l : List Item) (i' : Item)
    (hsafe : ∀ f ∈ idFields, ∀ v : String, i'.getId f = some v →
      ∀ o ∈ l, o.pk ≠ i'.pk → o.getId f ≠ some v)
    (hUL : ∀ a ∈ l, ∀ b ∈ l, ∀ f ∈ idFields,
      a.getId f ≠ none → a.getId f = b.getId f → a.pk = b.pk) :
    ∀ a ∈ replace_item l i', ∀ b ∈ replace_item l i', ∀ f ∈ idFields,
      a.getId f ≠ none → a.getId f = b.getId f → a.pk = b.pk := by
  intro a ha b hb f hf hne heq
  rcases mem_replace l i' a ha with ha' | ⟨hal, hapk⟩
  · rcases mem_replace l i' b hb with hb' | ⟨hbl, hbpk⟩
    · rw [ha', hb']
    · rcases hv : a.getId f with _ | v
      · exact absurd hv hne
      · rw [hv] at heq
        have hiv : i'.getId f = some v := ha' ▸ hv
        exact absurd heq.symm (hsafe f hf v hiv b hbl hbpk)
  · rcases mem_replace l i' b hb with hb' | ⟨hbl, hbpk⟩
    · rcases hv : b.getId f with _ | v
      · rw [heq, hv] at hne
        exact absurd rfl hne
      · have hiv : i'.getId f = some v := hb' ▸ hv
        have hav : a.getId f = some v := heq.trans hv
        exact absurd hav (hsafe f hf v hiv a hal hapk)
    · exact hUL a hal b hbl f hf hne heq

/-- Appending a row that passed the save-time uniqueness check
preserves the uniqueness invariant. -/
theorem uniq_append (l : List Item) (ni : Item)
    (hval : ids_unique_against l ni = true)
    (hUL : ∀ a ∈ l, ∀ b ∈ l, ∀ f ∈ idFields,
      a.getId f ≠ none → a.getId f = b.getId f → a.pk = b.pk) :
    ∀ a ∈ l ++ [ni], ∀ b ∈ l ++ [ni], ∀ f ∈ idFields,
      a.getId f ≠ none → a.getId f = b.getId f → a.pk = b.pk := by
  have hsafe := ids_unique_spec l ni hval
  intro a ha b hb f hf hne heq
  rcases List.mem_append.mp ha with hal | ha1
  · rcases List.mem_append.mp hb with hbl | hb1
    · exact hUL a hal b hbl f hf hne heq
    · obtain rfl := List.mem_singleton.mp hb1
      by_cases hpk : a.pk = b.pk
      · exact hpk
      · rcases hv : b.getId f with _ | v
        · rw [hv] at heq
          exact absurd heq hne
        · exact absurd (heq ▸ hv ▸ rfl : a.getId f = some v)
            (hsafe f hf v hv a hal hpk)
  · obtain rfl := List.mem_singleton.mp ha1
    rcases List.mem_append.mp hb with hbl | hb1
    · rcases hv : a.getId f with _ | v
      · exact absurd hv hne
      · rw [hv] at heq
        by_cases hpk : b.pk = a.pk
        · exact hpk.symm
        · exact absurd heq.symm (hsafe f hf v hv b hbl hpk)
    · obtain rfl := List.mem_singleton.mp hb1
      rfl

end JustMedia

namespace JustMedia

/-- `setattr` of the non-id fields keeps pk and ids. -/
theorem exact_apply_keeps (i : Item) (d : ItemData) :
    (exact_apply i d).pk = i.pk ∧ ∀ f : IdField, (exact_apply i d).getId f = i.getId f :=
  ⟨rfl, fun f => by cases f <;> rfl⟩

/-- The fill-empty write keeps pk and ids. -/
theorem apply_fills_keeps (i : Item) (fl : ItemData) :
    (apply_fills i fl).pk = i.pk ∧ ∀ f : IdField, (apply_fills i fl).getId f = i.getId f :=
  ⟨rfl, fun f => by cases f <;> rfl⟩

/-- The subset-merge write keeps pk and sets the ids to the record's. -/
theorem subset_apply_keeps (i : Item) (d : ItemData) :
    (subset_apply i d).pk = i.pk ∧ ∀ f : IdField, (subset_apply i d).getId f = d.getId f :=
  ⟨rfl, fun f => by cases f <;> rfl⟩

/-- An empty subset-merge fields dict means every id of the record
already equals the stored one. -/
theorem subset_has_fields_false (i : Item) (d : ItemData)
    (h : subset_has_fields i d = false) : ∀ f ∈ idFields, d.getId f = i.getId f := by
  intro f hf
  unfold subset_has_fields at h
  rcases Bool.or_eq_false_iff.mp h with ⟨_, h2⟩
  rw [List.any_eq_false] at h2
  have h3 := h2 f hf
  simpa using h3

end JustMedia

namespace JustMedia

/-- The saved row keeps the pk; with an exact match it keeps the ids,
with a subset match it takes the record's ids. -/
theorem ui_item1_pk (cfg : Config) (item : Item) (d : ItemData) (su sub : Bool) :
    (ui_item1 cfg item d su sub).pk = item.pk := by
  unfold ui_item1
  split
  · exact (subset_apply_keeps item d).1
  · split
    · exact (exact_apply_keeps item d).1
    · split
      · exact (apply_fills_keeps item (fills_of item d)).1
      · rfl

/-- When the branch collects no fields to write, the value saved (if
any) carries the row's own ids. -/
theorem ui_item1_ids_of_no_fields (cfg : Config) (item : Item) (d : ItemData)
    (su sub : Bool) (h : ui_has_fields cfg item d su sub = false) :
    ∀ f ∈ idFields, (ui_item1 cfg item d su sub).getId f = item.getId f := by
  intro f hf
  cases sub with
  | true =>
    have hsub : subset_has_fields item d = false := by
      unfold ui_has_fields at h
      simpa using h
    have := subset_has_fields_false item d hsub f hf
    unfold ui_item1
    simp only [if_pos rfl, if_true]
    rw [(subset_apply_keeps item d).2 f]
    exact this
  | false =>
    unfold ui_item1
    simp only [Bool.false_eq_true, if_false]
    split
    · exact (exact_apply_keeps item d).2 f
    · split
      · exact (apply_fills_keeps item (fills_of item d)).2 f
      · rfl

/-- Shape of a successful `_update_item` call: the action is `updated`
or `skipped`, and the row list is unchanged or produced by one or two
pk-targeted saves whose values either passed the uniqueness validation
or kept the row's ids. -/
theorem update_item_shape (cfg : Config) (st : Store) (item : Item) (d : ItemData)
    (gn cn : List String) (t : Int) (sub : Bool) (st' : Store) (a : String)
    (hres : update_item cfg st item d gn cn t sub = some (st', a)) :
    (a = "updated" ∨ a = "skipped") ∧
    (st'.items = st.items ∨
      ∃ i1 i2 : Item, i1.pk = item.pk ∧ i2.pk = i1.pk ∧
        (∀ f : IdField, i2.getId f = i1.getId f) ∧
        (ids_unique_against st.items i1 = true ∨
          (∀ f ∈ idFields, i1.getId f = item.getId f)) ∧
        (st'.items = replace_item st.items i2 ∨
         st'.items = replace_item (replace_item st.items i1) i2)) := by
  have hmgI : (meta_get_or_create st item.pk none).1.items = st.items :=
    (meta_goc_items st item.pk none).1
  unfold update_item at hres
  simp only at hres
  set mg := meta_get_or_create st item.pk none with hmg
  set su := ui_should_update mg.2.2 mg.2.1 t with hsudef
  set i1 := ui_item1 cfg item d su sub with hi1def
  set HF := ui_has_fields cfg item d su sub with hHFdef
  by_cases hmain : (HF || (sub || su)) = true
  · rw [if_pos hmain] at hres
    by_cases hg : (HF && !ids_unique_against mg.1.items i1) = true
    · rw [if_pos hg] at hres
      exact Option.noConfusion hres
    · rw [if_neg hg] at hres
      rw [Option.some.injEq, Prod.mk.injEq] at hres
      obtain ⟨hst, hact⟩ := hres
      constructor
      · subst hact
        repeat first | exact Or.inl rfl | exact Or.inr rfl | split
      · right
        by_cases hSM : (sub || su) = true
        · simp only [if_pos hSM] at hst
          by_cases hHF : HF = true
          · have hv : ids_unique_against mg.1.items i1 = true := by
              cases hV : ids_unique_against mg.1.items i1 with
              | true => rfl
              | false => exact absurd (by rw [hHF, hV]; rfl) hg
            rw [hmgI] at hv
            simp only [if_pos hHF] at hst
            refine ⟨i1, (update_m2m_relations
                { mg.1 with items := replace_item mg.1.items i1 } i1 gn cn).2.1,
              ui_item1_pk cfg item d su sub, ?_, ?_, Or.inl hv, Or.inr ?_⟩
            · exact (m2m_facts _ i1 gn cn).1
            · exact (m2m_facts _ i1 gn cn).2.1
            · rw [← hst]
              rw [(update_metadata_items _ item.pk t mg.2.2).1]
              rw [(m2m_facts _ i1 gn cn).2.2.1]
              simp only [hmgI]
          · have hHFf : HF = false := by
              cases hV : HF with
              | false => rfl
              | true => exact absurd hV hHF
            simp only [hHFf, Bool.false_eq_true, if_false] at hst
            refine ⟨i1, (update_m2m_relations mg.1 i1 gn cn).2.1,
              ui_item1_pk cfg item d su sub, ?_, ?_,
              Or.inr (ui_item1_ids_of_no_fields cfg item d su sub hHFf), Or.inl ?_⟩
            · exact (m2m_facts _ i1 gn cn).1
            · exact (m2m_facts _ i1 gn cn).2.1
            · rw [← hst]
              rw [(update_metadata_items _ item.pk t mg.2.2).1]
              rw [(m2m_facts _ i1 gn cn).2.2.1]
              simp only [hmgI]
        · have hHF : HF = true := by
            rcases Bool.or_eq_true_iff.mp hmain with h | h
            · exact h
            · exact absurd h hSM
          have hv : ids_unique_against mg.1.items i1 = true := by
            cases hV : ids_unique_against mg.1.items i1 with
            | true => rfl
            | false => exact absurd (by rw [hHF, hV]; rfl) hg
          rw [hmgI] at hv
          simp only [if_neg hSM, if_pos hHF] at hst
          refine ⟨i1, i1, ui_item1_pk cfg item d su sub, rfl, fun f => rfl,
            Or.inl hv, Or.inl ?_⟩
          rw [← hst]
          simp only [hmgI]
  · rw [if_neg hmain] at hres
    rw [Option.some.injEq, Prod.mk.injEq] at hres
    obtain ⟨hst, hact⟩ := hres
    exact ⟨Or.inr hact.symm, Or.inl (by rw [← hst]; exact hmgI)⟩

/-- A successful `_update_item` call preserves the id-uniqueness
invariant and returns `updated` or `skipped`. -/
theorem update_item_uniq (cfg : Config) (st : Store) (item : Item) (d : ItemData)
    (gn cn : List String) (t : Int) (sub : Bool) (st' : Store) (a : String)
    (hmem : item ∈ st.items) (hU : UniqStore st)
    (hres : update_item cfg st item d gn cn t sub = some (st', a)) :
    UniqStore st' ∧ (a = "updated" ∨ a = "skipped") := by
  obtain ⟨hact, hsh⟩ := update_item_shape cfg st item d gn cn t sub st' a hres
  refine ⟨?_, hact⟩
  unfold UniqStore at hU ⊢
  rcases hsh with he | ⟨i1, i2, hpk1, hpk21, hids21, hsafe1, hloc⟩
  · rw [he]; exact hU
  · have hsafe : ∀ f ∈ idFields, ∀ v : String, i1.getId f = some v →
        ∀ o ∈ st.items, o.pk ≠ i1.pk → o.getId f ≠ some v := by
      rcases hsafe1 with hval | hkeep
      · exact ids_unique_spec st.items i1 hval
      · intro f hf v hv o ho hpk hov
        rw [hkeep f hf] at hv
        have hone : o.getId f ≠ none := by rw [hov]; exact fun hc => Option.noConfusion hc
        have := hU o ho item hmem f hf hone (hov.trans hv.symm)
        exact hpk (this.trans hpk1.symm)
    have hsafe2 : ∀ f ∈ idFields, ∀ v : String, i2.getId f = some v →
        ∀ o ∈ st.items, o.pk ≠ i2.pk → o.getId f ≠ some v := by
      intro f hf v hv o ho hpk
      rw [hids21 f] at hv
      rw [hpk21] at hpk
      exact hsafe f hf v hv o ho hpk
    have hU1 := uniq_replace st.items i1 hsafe hU
    rcases hloc with h1 | h2
    · rw [h1]
      exact uniq_replace st.items i2 hsafe2 hU
    · rw [h2]
      refine uniq_replace (replace_item st.items i1) i2 ?_ hU1
      intro f hf v hv o ho hpk
      rcases mem_replace st.items i1 o ho with ho1 | ⟨hol, hopk⟩
      · exact absurd (by rw [ho1, hpk21]) hpk
      · exact hsafe2 f hf v hv o hol hpk

/-- An exact-match hit is a row of the store. -/
theorem find_exact_match_mem (st : Store) (d : ItemData) (i : Item)
    (h : find_exact_match st d = .found i) : i ∈ st.items := by
  unfold find_exact_match at h
  cases hf : st.items.filter (exact_match_pred d) with
  | nil => rw [hf] at h; exact absurd h (by simp)
  | cons x l =>
    cases l with
    | nil =>
      rw [hf] at h
      simp only [Lookup.found.injEq] at h
      have hx : x ∈ st.items.filter (exact_match_pred d) := by
        rw [hf]; exact List.mem_cons_self x []
      rw [← h]
      exact List.mem_of_mem_filter hx
    | cons y l2 => rw [hf] at h; exact absurd h (by simp)

/-- A subset-match hit is a row of the store. -/
theorem find_subset_match_mem (st : Store) (d : ItemData) (m : Item)
    (h : find_subset_match st d = some m) : m ∈ st.items := by
  unfold find_subset_match at h
  by_cases h1 : (!anyApiId d) = true
  · rw [if_pos h1] at h; exact Option.noConfusion h
  · rw [if_neg h1] at h
    simp only at h
    by_cases h2 : (st.items.filter (candidate_pred d)).isEmpty = true
    · rw [if_pos h2] at h; exact Option.noConfusion h
    · rw [if_neg h2] at h
      rcases subset_loop_spec d (st.items.filter (candidate_pred d)) none (-1) with
        ⟨heq, _⟩ | ⟨l1, mm, l2, hsplit, _, _, heq, _, _⟩
      · rw [heq] at h; exact Option.noConfusion h
      · rw [heq] at h
        simp only [Option.some.injEq] at h
        have hmm : mm ∈ st.items.filter (candidate_pred d) := by
          rw [hsplit]
          exact List.mem_append.mpr (Or.inr (List.mem_cons_self mm l2))
        rw [← h]
        exact List.mem_of_mem_filter hmm

/-- A successful `_create_item` call preserves the id-uniqueness
invariant. -/
theorem create_item_uniq (st : Store) (d : ItemData) (gn cn : List String) (t : Int)
    (st' : Store) (pk : Nat) (hU : UniqStore st)
    (hres : create_item st d gn cn t = some (st', pk)) : UniqStore st' := by
  unfold create_item at hres
  simp only at hres
  cases hV : ids_unique_against st.items (item_from_data st.nextPk d) with
  | false =>
    rw [hV] at hres
    rw [if_pos (by rfl : (!false) = true)] at hres
    exact Option.noConfusion hres
  | true =>
    rw [hV] at hres
    rw [if_neg (by simp : ¬(!true) = true)] at hres
    rw [Option.some.injEq, Prod.mk.injEq] at hres
    obtain ⟨hst, hpk⟩ := hres
    set ni := item_from_data st.nextPk d with hni
    set st1 : Store :=
      { st with items := st.items ++ [ni], nextPk := st.nextPk + 1 } with hst1
    have hUapp : UniqStore st1 := uniq_append st.items ni hV hU
    have hitems : st'.items =
        replace_item st1.items (update_m2m_relations st1 ni gn cn).2.1 := by
      rw [← hst]
      rw [(update_metadata_items _ ni.pk t true).1]
      exact (m2m_facts st1 ni gn cn).2.2.1
    unfold UniqStore
    rw [hitems]
    refine uniq_replace st1.items _ ?_ hUapp
    intro f hf v hv o ho hpk2
    rw [(m2m_facts st1 ni gn cn).2.1 f] at hv
    rw [(m2m_facts st1 ni gn cn).1] at hpk2
    have hoapp : o ∈ st.items ∨ o ∈ [ni] := List.mem_append.mp ho
    rcases hoapp with hos | hon
    · exact ids_unique_spec st.items ni hV f hf v hv o hos hpk2
    · have : o = ni := List.mem_singleton.mp hon
      rw [this] at hpk2
      exact absurd rfl hpk2

/-- C2: starting from a store in which no two rows share the same
non-null value in the same external-id column, every `process_api_item`
call leaves the store satisfying that invariant, and a call that ends
in the processor error leaves the store untouched (rolled back). -/
theorem C2_uniqueness_invariant (cfg : Config) (st : Store) (mapped : Option MappedData)
    (t : Int) (hU : UniqStore st) :
    UniqStore (process_api_item cfg st mapped t).1 ∧
    ((process_api_item cfg st mapped t).2.2 = "error_MediaItemProcessorError" →
      (process_api_item cfg st mapped t).1 = st) := by
  unfold process_api_item
  cases mapped with
  | none => exact ⟨hU, fun _ => rfl⟩
  | some md =>
    simp only
    by_cases ht : (!oStrTruthy md.media_item_data.title) = true
    · rw [if_pos ht]
      exact ⟨hU, fun _ => rfl⟩
    · rw [if_neg ht]
      by_cases hi : (!anyApiId md.media_item_data) = true
      · rw [if_pos hi]
        exact ⟨hU, fun _ => rfl⟩
      · rw [if_neg hi]
        cases hfe : find_exact_match st md.media_item_data with
        | multiple => exact ⟨hU, fun _ => rfl⟩
        | found item =>
          simp only
          cases hup : update_item cfg st item md.media_item_data md.genres md.countries
              t false with
          | none => exact ⟨hU, fun _ => rfl⟩
          | some r =>
            simp only
            obtain ⟨hUr, hact⟩ := update_item_uniq cfg st item md.media_item_data
              md.genres md.countries t false r.1 r.2
              (find_exact_match_mem st md.media_item_data item hfe) hU
              (by rw [hup])
            refine ⟨hUr, fun he => ?_⟩
            rcases hact with h | h
            · rw [h] at he; exact absurd he (by decide)
            · rw [h] at he; exact absurd he (by decide)
        | missing =>
          simp only
          cases hfs : find_subset_match st md.media_item_data with
          | some item =>
            simp only
            cases hup : update_item cfg st item md.media_item_data md.genres md.countries
                t true with
            | none => exact ⟨hU, fun _ => rfl⟩
            | some r =>
              simp only
              obtain ⟨hUr, hact⟩ := update_item_uniq cfg st item md.media_item_data
                md.genres md.countries t true r.1 r.2
                (find_subset_match_mem st md.media_item_data item hfs) hU
                (by rw [hup])
              refine ⟨hUr, fun he => ?_⟩
              rcases hact with h | h
              · rw [h] at he; exact absurd he (by decide)
              · rw [h] at he; exact absurd he (by decide)
          | none =>
            simp only
            cases hc : create_item st md.media_item_data md.genres md.countries t with
            | none => exact ⟨hU, fun _ => rfl⟩
            | some r =>
              simp only
              refine ⟨create_item_uniq st md.media_item_data md.genres md.countries t
                r.1 r.2 hU (by rw [hc]), fun he => ?_⟩
              exact absurd he (by decide)

theorem C2_uniqueness_invariant_witness :
    UniqStore (process_api_item ⟨false⟩ ⟨[], 0, [], [], []⟩
      (some ⟨{ title := some "X", kinopoisk_id := some "1" }, [], []⟩) 0).1 ∧
    ((process_api_item ⟨false⟩ ⟨[], 0, [], [], []⟩
      (some ⟨{ title := some "X", kinopoisk_id := some "1" }, [], []⟩) 0).2.2 =
        "error_MediaItemProcessorError" →
      (process_api_item ⟨false⟩ ⟨[], 0, [], [], []⟩
        (some ⟨{ title := some "X", kinopoisk_id := some "1" }, [], []⟩) 0).1 =
        ⟨[], 0, [], [], []⟩) :=
  C2_uniqueness_invariant ⟨false⟩ ⟨[], 0, [], [], []⟩
    (some ⟨{ title := some "X", kinopoisk_id := some "1" }, [], []⟩) 0 (by decide)

end JustMedia

namespace JustMedia

/-- `get_or_create` on a pre-existing metadata row returns it. -/
theorem meta_goc_of_find (st : Store) (pk : Nat) (dflt : Option Int) (v : Option Int)
    (hm : meta_find st pk = some v) :
    meta_get_or_create st pk dflt = (st, v, false) := by
  unfold meta_get_or_create
  rw [hm]

/-- Setting the timestamp on a list that has the row updates the first
matching row. -/
theorem find_set_list (l : List (Nat × Option Int)) (pk : Nat) (v : Option Int)
    (h : (l.find? (fun p => p.1 == pk)).isSome) :
    ((l.map fun p => if p.1 = pk then (p.1, v) else p).find? (fun p => p.1 == pk)) =
      some (pk, v) := by
  induction l with
  | nil => simp [List.find?] at h
  | cons a l ih =>
    by_cases ha : a.1 = pk
    · simp only [List.map_cons, if_pos ha]
      rw [List.find?_cons_of_pos]
      · rw [ha]
      · simp [ha]
    · simp only [List.map_cons, if_neg ha]
      rw [List.find?_cons_of_neg _ (by simp [ha]), ih]
      rw [List.find?_cons_of_neg _ (by simp [ha])] at h
      exact h

theorem meta_find_meta_set (st : Store) (pk : Nat) (v : Option Int)
    (h : (meta_find st pk).isSome) :
    meta_find (meta_set st pk v) pk = some v := by
  unfold meta_find meta_set
  simp only
  unfold meta_find at h
  cases hf : st.meta.find? (fun p => p.1 == pk) with
  | none => rw [hf] at h; simp at h
  | some q =>
    rw [find_set_list st.meta pk v (by rw [hf]; rfl)]
    rfl

/-- After `_update_metadata` with a pre-existing row, the stored
timestamp is the API time. -/
theorem meta_find_update_metadata (st : Store) (pk : Nat) (t : Int) (mc : Bool)
    (v : Option Int) (hm : meta_find st pk = some v) :
    meta_find (update_metadata st pk t mc) pk = some (some t) := by
  unfold update_metadata
  rw [meta_goc_of_find st pk (some t) v hm]
  simp only
  by_cases hc : (!false && (v != some t || mc)) = true
  · rw [if_pos hc]
    exact meta_find_meta_set st pk (some t) (by rw [hm]; rfl)
  · rw [if_neg hc]
    have hv : v = some t := by
      rcases Bool.or_eq_false_iff.mp
        (Bool.not_eq_true _ ▸ (by simpa using hc : ¬(v != some t || mc) = true)) with ⟨h1, _⟩
      simpa using h1
    rw [hm, hv]

/-- A stale timestamp means `should_update` is false. -/
theorem ui_should_update_stale (T t : Int) (hT : ¬ t > T) :
    ui_should_update false (some T) t = false := by
  unfold ui_should_update
  simp [hT]

/-- With a stale timestamp and the fill mode off, `_update_item`
writes nothing and skips. -/
theorem update_item_stale_noop (cfg : Config) (st : Store) (item : Item) (d : ItemData)
    (gn cn : List String) (t T : Int)
    (hm : meta_find st item.pk = some (some T))
    (hT : ¬ t > T) (hfill : cfg.fill_empty_fields = false) :
    update_item cfg st item d gn cn t false = some (st, "skipped") := by
  unfold update_item
  rw [meta_goc_of_find st item.pk none (some T) hm]
  simp only
  rw [ui_should_update_stale T t hT]
  have hhf : ui_has_fields cfg item d false false = false := by
    unfold ui_has_fields
    simp [hfill]
  rw [hhf]
  rfl

theorem fillOS_self (v : Option String) : fillOS v v = none := by
  cases v with
  | none => rfl
  | some x =>
    unfold fillOS oStrFalsy
    by_cases hx : x = ""
    · simp [hx]
    · simp [hx]

theorem fillOI_self (v : Option Int) : fillOI v v = none := by
  cases v with
  | none => rfl
  | some x =>
    unfold fillOI oIntFalsy
    by_cases hx : x = 0
    · simp [hx]
    · simp [hx]

theorem fillS_self (x : String) : fillS x (some x) = none := by
  unfold fillS strFalsy
  by_cases hx : x = ""
  · simp [hx]
  · simp [hx]

/-- With all fill candidates empty, `_update_item` on a stale record
writes nothing and skips, whatever the mode flag. -/
theorem update_item_noop_fills (cfg : Config) (st : Store) (item : Item) (d : ItemData)
    (gn cn : List String) (t T : Int)
    (hm : meta_find st item.pk = some (some T))
    (hT : ¬ t > T)
    (hfl : anyPresent (fills_of item d) = false) :
    update_item cfg st item d gn cn t false = some (st, "skipped") := by
  unfold update_item
  rw [meta_goc_of_find st item.pk none (some T) hm]
  simp only
  rw [ui_should_update_stale T t hT]
  have hhf : ui_has_fields cfg item d false false = false := by
    unfold ui_has_fields
    cases hc : cfg.fill_empty_fields with
    | false => simp
    | true => simpa using hfl
  rw [hhf]
  rfl

/-- Propositional id-safety implies the save validation passes. -/
theorem ids_unique_of_safe (l : List Item) (w : Item)
    (h : ∀ f ∈ idFields, ∀ v : String, w.getId f = some v →
      ∀ o ∈ l, o.pk ≠ w.pk → o.getId f ≠ some v) :
    ids_unique_against l w = true := by
  unfold ids_unique_against
  rw [List.all_eq_true]
  intro f hf
  cases hv : w.getId f with
  | none => rfl
  | some v =>
    simp only
    rw [List.all_eq_true]
    intro o ho
    by_cases hpk : o.pk = w.pk
    · simp [hpk]
    · have := h f hf v hv o ho hpk
      simp [this]

/-- A value keeping a stored row's ids always passes the validation in
a store satisfying the invariant. -/
theorem safe_of_same_ids (st : Store) (item w : Item) (hU : UniqStore st)
    (hmem : item ∈ st.items) (hpk : w.pk = item.pk)
    (hids : ∀ f ∈ idFields, w.getId f = item.getId f) :
    ids_unique_against st.items w = true := by
  apply ids_unique_of_safe
  intro f hf v hv o ho hpk2 hov
  rw [hids f hf] at hv
  have hone : o.getId f ≠ none := by rw [hov]; exact fun hc => Option.noConfusion hc
  have := hU o ho item hmem f hf hone (hov.trans hv.symm)
  exact hpk2 (this.trans hpk.symm)

/-- Writing twice to the same pk is one write. -/
theorem replace_replace (l : List Item) (i1 i2 : Item) (h : i2.pk = i1.pk) :
    replace_item (replace_item l i1) i2 = replace_item l i2 := by
  unfold replace_item
  rw [List.map_map]
  apply List.map_congr_left
  intro o _
  by_cases ho : o.pk = i1.pk
  · simp only [Function.comp_apply, if_pos ho]
    rw [if_pos (h.symm ▸ rfl : i1.pk = i2.pk)]
    rw [if_pos (ho.trans h.symm)]
  · simp only [Function.comp_apply, if_neg ho]

theorem setEqb_refl (a : List String) : setEqb a a = true := by
  unfold setEqb
  rw [Bool.and_eq_true_iff]
  constructor <;>
  · rw [List.all_eq_true]
    intro x hx
    exact List.elem_eq_true_of_mem hx

/-- The M2M refresh leaves the row's name sets set-equal to the
computed target sets. -/
theorem m2m_sets (st : Store) (item : Item) (gn cn : List String) :
    setEqb (update_m2m_relations st item gn cn).2.1.genres
      (get_or_create_m2m st.genreTable gn).2 = true ∧
    setEqb (update_m2m_relations st item gn cn).2.1.countries
      (get_or_create_m2m st.countryTable cn).2 = true := by
  unfold update_m2m_relations
  simp only
  constructor
  · by_cases hg : (!setEqb item.genres (get_or_create_m2m st.genreTable gn).2) = true
    · rw [if_pos hg]
      by_cases hc : (!setEqb { item with genres := (get_or_create_m2m st.genreTable gn).2 }.countries
          (get_or_create_m2m st.countryTable cn).2) = true
      · rw [if_pos hc]
        exact setEqb_refl _
      · rw [if_neg hc]
        exact setEqb_refl _
    · rw [if_neg hg]
      have : setEqb item.genres (get_or_create_m2m st.genreTable gn).2 = true := by
        cases hv : setEqb item.genres (get_or_create_m2m st.genreTable gn).2 with
        | true => rfl
        | false => exact absurd (by rw [hv]; rfl) hg
      by_cases hc : (!setEqb item.countries (get_or_create_m2m st.countryTable cn).2) = true
      · rw [if_pos hc]
        exact this
      · rw [if_neg hc]
        exact this
  · by_cases hg : (!setEqb item.genres (get_or_create_m2m st.genreTable gn).2) = true
    · rw [if_pos hg]
      by_cases hc : (!setEqb { item with genres := (get_or_create_m2m st.genreTable gn).2 }.countries
          (get_or_create_m2m st.countryTable cn).2) = true
      · rw [if_pos hc]
        exact setEqb_refl _
      · rw [if_neg hc]
        simp only
        cases hv : setEqb item.countries (get_or_create_m2m st.countryTable cn).2 with
        | true => rfl
        | false => exact absurd (by simp [hv]) hc
    · rw [if_neg hg]
      by_cases hc : (!setEqb item.countries (get_or_create_m2m st.countryTable cn).2) = true
      · rw [if_pos hc]
        exact setEqb_refl _
      · rw [if_neg hc]
        cases hv : setEqb item.countries (get_or_create_m2m st.countryTable cn).2 with
        | true => rfl
        | false => exact absurd (by simp [hv]) hc

/-- A strictly newer record on an exact match with present non-id
fields: full apply, M2M refresh, metadata write, `updated`. -/
theorem update_item_fresh (cfg : Config) (st : Store) (item : Item) (d : ItemData)
    (gn cn : List String) (t T : Int)
    (hm : meta_find st item.pk = some (some T))
    (hT : t > T) (hpres : nonIdPresent d = true)
    (hmem : item ∈ st.items) (hU : UniqStore st) :
    update_item cfg st item d gn cn t false =
      some (update_metadata
        (update_m2m_relations
          { st with items := replace_item st.items (exact_apply item d) }
          (exact_apply item d) gn cn).1 item.pk t false, "updated") := by
  unfold update_item
  rw [meta_goc_of_find st item.pk none (some T) hm]
  simp only
  have hsu : ui_should_update false (some T) t = true := by
    unfold ui_should_update
    simp [hT]
  rw [hsu]
  have hi1 : ui_item1 cfg item d true false = exact_apply item d := by
    unfold ui_item1
    rfl
  have hhf : ui_has_fields cfg item d true false = true := by
    unfold ui_has_fields
    simpa using hpres
  rw [hi1, hhf]
  have hval : ids_unique_against st.items (exact_apply item d) = true :=
    safe_of_same_ids st item (exact_apply item d) hU hmem (exact_apply_keeps item d).1
      (fun f _ => (exact_apply_keeps item d).2 f)
  rw [hval]
  simp only [Bool.false_or, Bool.or_true, Bool.not_true, Bool.and_false, Bool.true_and,
    Bool.false_eq_true, if_false, if_pos rfl, if_true]
  generalize (update_m2m_relations
      { st with items := replace_item st.items (exact_apply item d) }
      (exact_apply item d) gn cn).2.2 = mc
  cases mc <;> rfl

/-- `meta_find` only reads the metadata table. -/
theorem meta_find_congr (st1 st2 : Store) (pk : Nat) (h : st1.meta = st2.meta) :
    meta_find st1 pk = meta_find st2 pk := by
  unfold meta_find
  rw [h]

/-- Gate reduction of `process_api_item` on an exact match. -/
theorem process_found (cfg : Config) (st : Store) (md : MappedData) (t : Int) (item : Item)
    (htitle : oStrTruthy md.media_item_data.title = true)
    (hids : anyApiId md.media_item_data = true)
    (hfe : find_exact_match st md.media_item_data = .found item) :
    process_api_item cfg st (some md) t =
      match update_item cfg st item md.media_item_data md.genres md.countries t false with
      | none => (st, none, "error_MediaItemProcessorError")
      | some r => (r.1, some item.pk, r.2) := by
  unfold process_api_item
  simp only [htitle, hids, Bool.not_true, Bool.false_eq_true, if_false]
  rw [hfe]

/-- C3: on an exact match whose stored source timestamp is `T`, a record
with `t ≤ T` and fill mode off changes nothing and skips, while a record
with `t > T` and present non-id fields rewrites the row from the record,
refreshes the genre/country sets, advances the metadata timestamp to `t`
and returns `updated`. -/
theorem C3_newer_wins (cfg : Config) (st : Store) (md : MappedData) (item : Item) (t T : Int)
    (htitle : oStrTruthy md.media_item_data.title = true)
    (hids : anyApiId md.media_item_data = true)
    (hfe : find_exact_match st md.media_item_data = .found item)
    (hm : meta_find st item.pk = some (some T))
    (hU : UniqStore st) :
    (¬ t > T → cfg.fill_empty_fields = false →
      process_api_item cfg st (some md) t = (st, some item.pk, "skipped")) ∧
    (t > T → nonIdPresent md.media_item_data = true →
      (process_api_item cfg st (some md) t).2.1 = some item.pk ∧
      (process_api_item cfg st (some md) t).2.2 = "updated" ∧
      ∃ w : Item,
        (process_api_item cfg st (some md) t).1.items = replace_item st.items w ∧
        w.pk = item.pk ∧
        w.title = md.media_item_data.title.getD item.title ∧
        w.original_title = ov item.original_title md.media_item_data.original_title ∧
        w.media_type = md.media_item_data.media_type.getD item.media_type ∧
        w.release_year = ov item.release_year md.media_item_data.release_year ∧
        w.description = ov item.description md.media_item_data.description ∧
        w.poster_url = ov item.poster_url md.media_item_data.poster_url ∧
        (∀ f : IdField, w.getId f = item.getId f) ∧
        setEqb w.genres (get_or_create_m2m st.genreTable md.genres).2 = true ∧
        setEqb w.countries (get_or_create_m2m st.countryTable md.countries).2 = true ∧
        meta_find (process_api_item cfg st (some md) t).1 item.pk = some (some t)) := by
  constructor
  · intro hT hfill
    rw [process_found cfg st md t item htitle hids hfe]
    rw [update_item_stale_noop cfg st item md.media_item_data md.genres md.countries
      t T hm hT hfill]
  · intro hT hpres
    rw [process_found cfg st md t item htitle hids hfe]
    rw [update_item_fresh cfg st item md.media_item_data md.genres md.countries t T hm hT
      hpres (find_exact_match_mem st md.media_item_data item hfe) hU]
    simp only
    refine ⟨by trivial, by trivial,
      (update_m2m_relations
        { st with items := replace_item st.items (exact_apply item md.media_item_data) }
        (exact_apply item md.media_item_data) md.genres md.countries).2.1,
      ?_, ?_, ?_, ?_, ?_, ?_, ?_, ?_, ?_, ?_, ?_, ?_⟩
    · rw [(update_metadata_items _ item.pk t false).1]
      rw [(m2m_facts _ (exact_apply item md.media_item_data) md.genres md.countries).2.2.1]
      simp only
      exact replace_replace st.items (exact_apply item md.media_item_data) _
        ((m2m_facts _ (exact_apply item md.media_item_data) md.genres md.countries).1)
    · exact ((m2m_facts _ (exact_apply item md.media_item_data) md.genres md.countries).1).trans
        (exact_apply_keeps item md.media_item_data).1
    · exact (m2m_facts _ (exact_apply item md.media_item_data) md.genres md.countries).2.2.2.2.1
    · exact (m2m_facts _ (exact_apply item md.media_item_data)
        md.genres md.countries).2.2.2.2.2.1
    · exact (m2m_facts _ (exact_apply item md.media_item_data)
        md.genres md.countries).2.2.2.2.2.2.1
    · exact (m2m_facts _ (exact_apply item md.media_item_data)
        md.genres md.countries).2.2.2.2.2.2.2.1
    · exact (m2m_facts _ (exact_apply item md.media_item_data)
        md.genres md.countries).2.2.2.2.2.2.2.2.1
    · exact (m2m_facts _ (exact_apply item md.media_item_data)
        md.genres md.countries).2.2.2.2.2.2.2.2.2
    · intro f
      rw [(m2m_facts _ (exact_apply item md.media_item_data) md.genres md.countries).2.1 f]
      exact (exact_apply_keeps item md.media_item_data).2 f
    · exact (m2m_sets _ (exact_apply item md.media_item_data) md.genres md.countries).1
    · exact (m2m_sets _ (exact_apply item md.media_item_data) md.genres md.countries).2
    · refine meta_find_update_metadata _ item.pk t false (some T) ?_
      rw [meta_find_congr _ _ item.pk
        ((m2m_facts { st with items := replace_item st.items (exact_apply item md.media_item_data) }
          (exact_apply item md.media_item_data) md.genres md.countries).2.2.2.1)]
      exact hm

theorem C3_newer_wins_witness :
    process_api_item ⟨false⟩
      ⟨[⟨0, "Old", none, "movie", none, none, none, some "1", none, none, none, [], []⟩],
       1, [(0, some 5)], [], []⟩
      (some ⟨{ title := some "New", kinopoisk_id := some "1" }, [], []⟩) 3 =
      (⟨[⟨0, "Old", none, "movie", none, none, none, some "1", none, none, none, [], []⟩],
        1, [(0, some 5)], [], []⟩, some 0, "skipped") :=
  (C3_newer_wins ⟨false⟩
    ⟨[⟨0, "Old", none, "movie", none, none, none, some "1", none, none, none, [], []⟩],
     1, [(0, some 5)], [], []⟩
    ⟨{ title := some "New", kinopoisk_id := some "1" }, [], []⟩
    ⟨0, "Old", none, "movie", none, none, none, some "1", none, none, none, [], []⟩
    3 5 (by decide) (by decide) (by decide) (by decide) (by decide)).1
    (by decide) rfl

end JustMedia

namespace JustMedia

theorem fillS_keep_populated (cur : String) (v : Option String)
    (h : strFalsy cur = false) : fillS cur v = none := by
  unfold fillS
  cases v with
  | none => rfl
  | some x => simp [h]

theorem fillS_fill (cur x : String) (h1 : strFalsy cur = true)
    (h2 : strFalsy x = false) : fillS cur (some x) = some x := by
  unfold fillS
  simp only
  have hx : (x != "") = true := by
    unfold strFalsy at h2
    show (!(x == "")) = true
    rw [h2]
    rfl
  rw [if_pos (by rw [h1, hx]; rfl)]

theorem fillS_empty_incoming (cur x : String) (h : strFalsy x = true) :
    fillS cur (some x) = none := by
  unfold fillS
  simp only
  have hx : (x != "") = false := by
    unfold strFalsy at h
    show (!(x == "")) = false
    rw [h]
    rfl
  rw [hx]
  simp

theorem fillOS_keep_populated (cur : Option String) (v : Option String)
    (h : oStrFalsy cur = false) : fillOS cur v = none := by
  unfold fillOS
  cases v with
  | none => rfl
  | some x => simp [h]

theorem fillOS_fill (cur : Option String) (x : String) (h1 : oStrFalsy cur = true)
    (h2 : strFalsy x = false) : fillOS cur (some x) = some x := by
  unfold fillOS
  simp only
  have hx : (x != "") = true := by
    unfold strFalsy at h2
    show (!(x == "")) = true
    rw [h2]
    rfl
  rw [if_pos (by rw [h1, hx]; rfl)]

theorem fillOS_empty_incoming (cur : Option String) (x : String) (h : strFalsy x = true) :
    fillOS cur (some x) = none := by
  unfold fillOS
  simp only
  have hx : (x != "") = false := by
    unfold strFalsy at h
    show (!(x == "")) = false
    rw [h]
    rfl
  rw [hx]
  simp

theorem fillOI_keep_populated (cur : Option Int) (v : Option Int)
    (h : oIntFalsy cur = false) : fillOI cur v = none := by
  unfold fillOI
  cases v with
  | none => rfl
  | some x => simp [h]

theorem fillOI_fill (cur : Option Int) (x : Int) (h1 : oIntFalsy cur = true)
    (h2 : x ≠ 0) : fillOI cur (some x) = some x := by
  unfold fillOI
  simp only
  have hx : (x != 0) = true := by simp [h2]
  rw [if_pos (by rw [h1, hx]; rfl)]

theorem fillOI_zero_incoming (cur : Option Int) (x : Int) (h : x = 0) :
    fillOI cur (some x) = none := by
  unfold fillOI
  simp [h]

/-- On a stale exact match with the fill mode on, `_update_item`
fills from the record iff any field is fillable. -/
theorem update_item_fill (cfg : Config) (st : Store) (item : Item) (d : ItemData)
    (gn cn : List String) (t T : Int)
    (hm : meta_find st item.pk = some (some T))
    (hT : ¬ t > T) (hfill : cfg.fill_empty_fields = true)
    (hmem : item ∈ st.items) (hU : UniqStore st) :
    update_item cfg st item d gn cn t false =
      (if anyPresent (fills_of item d) then
        some ({ st with
                items := replace_item st.items (apply_fills item (fills_of item d)) },
              "updated")
      else some (st, "skipped")) := by
  unfold update_item
  rw [meta_goc_of_find st item.pk none (some T) hm]
  simp only
  rw [ui_should_update_stale T t hT]
  have hi1 : ui_item1 cfg item d false false = apply_fills item (fills_of item d) := by
    unfold ui_item1
    simp only [Bool.false_eq_true, if_false, hfill, if_pos rfl, if_true]
  have hhf : ui_has_fields cfg item d false false = anyPresent (fills_of item d) := by
    unfold ui_has_fields
    simp only [Bool.false_eq_true, if_false, hfill, if_pos rfl, if_true]
  rw [hi1, hhf]
  by_cases hA : anyPresent (fills_of item d) = true
  · have hval : ids_unique_against st.items (apply_fills item (fills_of item d)) = true :=
      safe_of_same_ids st item (apply_fills item (fills_of item d)) hU hmem
        (apply_fills_keeps item (fills_of item d)).1
        (fun f _ => (apply_fills_keeps item (fills_of item d)).2 f)
    rw [hval]
    simp only [hA, Bool.true_or, Bool.false_or, Bool.or_false, Bool.not_true,
      Bool.and_false, Bool.false_eq_true, if_false, if_pos rfl, if_true]
  · have hA' : anyPresent (fills_of item d) = false := by
      cases hv : anyPresent (fills_of item d) with
      | false => rfl
      | true => exact absurd hv hA
    simp only [hA', Bool.false_or, Bool.or_false, Bool.false_eq_true, if_false]

end JustMedia

namespace JustMedia

/-- Per-field behaviour of the fill-empty write: populated fields are
kept, empty fields take a non-empty incoming value, empty or absent
incoming values change nothing. -/
theorem apply_fills_fields (item : Item) (d : ItemData) :
    (strFalsy item.title = false → (apply_fills item (fills_of item d)).title = item.title) ∧
    (d.title = none → (apply_fills item (fills_of item d)).title = item.title) ∧
    (∀ x, d.title = some x → strFalsy x = true → (apply_fills item (fills_of item d)).title = item.title) ∧
    (∀ x, d.title = some x → strFalsy item.title = true → strFalsy x = false → (apply_fills item (fills_of item d)).title = x) ∧
    (oStrFalsy item.original_title = false → (apply_fills item (fills_of item d)).original_title = item.original_title) ∧
    (d.original_title = none → (apply_fills item (fills_of item d)).original_title = item.original_title) ∧
    (∀ x, d.original_title = some x → strFalsy x = true → (apply_fills item (fills_of item d)).original_title = item.original_title) ∧
    (∀ x, d.original_title = some x → oStrFalsy item.original_title = true → strFalsy x = false → (apply_fills item (fills_of item d)).original_title = some x) ∧
    (strFalsy item.media_type = false → (apply_fills item (fills_of item d)).media_type = item.media_type) ∧
    (d.media_type = none → (apply_fills item (fills_of item d)).media_type = item.media_type) ∧
    (∀ x, d.media_type = some x → strFalsy x = true → (apply_fills item (fills_of item d)).media_type = item.media_type) ∧
    (∀ x, d.media_type = some x → strFalsy item.media_type = true → strFalsy x = false → (apply_fills item (fills_of item d)).media_type = x) ∧
    (oIntFalsy item.release_year = false → (apply_fills item (fills_of item d)).release_year = item.release_year) ∧
    (d.release_year = none → (apply_fills item (fills_of item d)).release_year = item.release_year) ∧
    (∀ x, d.release_year = some x → x = 0 → (apply_fills item (fills_of item d)).release_year = item.release_year) ∧
    (∀ x, d.release_year = some x → oIntFalsy item.release_year = true → x ≠ 0 → (apply_fills item (fills_of item d)).release_year = some x) ∧
    (oStrFalsy item.description = false → (apply_fills item (fills_of item d)).description = item.description) ∧
    (d.description = none → (apply_fills item (fills_of item d)).description = item.description) ∧
    (∀ x, d.description = some x → strFalsy x = true → (apply_fills item (fills_of item d)).description = item.description) ∧
    (∀ x, d.description = some x → oStrFalsy item.description = true → strFalsy x = false → (apply_fills item (fills_of item d)).description = some x) ∧
    (oStrFalsy item.poster_url = false → (apply_fills item (fills_of item d)).poster_url = item.poster_url) ∧
    (d.poster_url = none → (apply_fills item (fills_of item d)).poster_url = item.poster_url) ∧
    (∀ x, d.poster_url = some x → strFalsy x = true → (apply_fills item (fills_of item d)).poster_url = item.poster_url) ∧
    (∀ x, d.poster_url = some x → oStrFalsy item.poster_url = true → strFalsy x = false → (apply_fills item (fills_of item d)).poster_url = some x) := by
  refine ⟨?_, ?_, ?_, ?_, ?_, ?_, ?_, ?_, ?_, ?_, ?_, ?_, ?_, ?_, ?_, ?_, ?_, ?_, ?_, ?_, ?_, ?_, ?_, ?_⟩
  · intro h
    show (fillS item.title d.title).getD item.title = _
    rw [fillS_keep_populated _ _ h]
    rfl
  · intro h
    show (fillS item.title d.title).getD item.title = _
    rw [h]
    rfl
  · intro x hx h
    show (fillS item.title d.title).getD item.title = _
    rw [hx, fillS_empty_incoming item.title x h]
    rfl
  · intro x hx h1 h2
    show (fillS item.title d.title).getD item.title = _
    rw [hx, fillS_fill item.title x h1 h2]
    rfl
  · intro h
    show ov item.original_title (fillOS item.original_title d.original_title) = _
    rw [fillOS_keep_populated _ _ h]
    rfl
  · intro h
    show ov item.original_title (fillOS item.original_title d.original_title) = _
    rw [h]
    rfl
  · intro x hx h
    show ov item.original_title (fillOS item.original_title d.original_title) = _
    rw [hx, fillOS_empty_incoming item.original_title x h]
    rfl
  · intro x hx h1 h2
    show ov item.original_title (fillOS item.original_title d.original_title) = _
    rw [hx, fillOS_fill item.original_title x h1 h2]
    rfl
  · intro h
    show (fillS item.media_type d.media_type).getD item.media_type = _
    rw [fillS_keep_populated _ _ h]
    rfl
  · intro h
    show (fillS item.media_type d.media_type).getD item.media_type = _
    rw [h]
    rfl
  · intro x hx h
    show (fillS item.media_type d.media_type).getD item.media_type = _
    rw [hx, fillS_empty_incoming item.media_type x h]
    rfl
  · intro x hx h1 h2
    show (fillS item.media_type d.media_type).getD item.media_type = _
    rw [hx, fillS_fill item.media_type x h1 h2]
    rfl
  · intro h
    show ov item.release_year (fillOI item.release_year d.release_year) = _
    rw [fillOI_keep_populated _ _ h]
    rfl
  · intro h
    show ov item.release_year (fillOI item.release_year d.release_year) = _
    rw [h]
    rfl
  · intro x hx h
    show ov item.release_year (fillOI item.release_year d.release_year) = _
    rw [hx, fillOI_zero_incoming item.release_year x h]
    rfl
  · intro x hx h1 h2
    show ov item.release_year (fillOI item.release_year d.release_year) = _
    rw [hx, fillOI_fill item.release_year x h1 h2]
    rfl
  · intro h
    show ov item.description (fillOS item.description d.description) = _
    rw [fillOS_keep_populated _ _ h]
    rfl
  · intro h
    show ov item.description (fillOS item.description d.description) = _
    rw [h]
    rfl
  · intro x hx h
    show ov item.description (fillOS item.description d.description) = _
    rw [hx, fillOS_empty_incoming item.description x h]
    rfl
  · intro x hx h1 h2
    show ov item.description (fillOS item.description d.description) = _
    rw [hx, fillOS_fill item.description x h1 h2]
    rfl
  · intro h
    show ov item.poster_url (fillOS item.poster_url d.poster_url) = _
    rw [fillOS_keep_populated _ _ h]
    rfl
  · intro h
    show ov item.poster_url (fillOS item.poster_url d.poster_url) = _
    rw [h]
    rfl
  · intro x hx h
    show ov item.poster_url (fillOS item.poster_url d.poster_url) = _
    rw [hx, fillOS_empty_incoming item.poster_url x h]
    rfl
  · intro x hx h1 h2
    show ov item.poster_url (fillOS item.poster_url d.poster_url) = _
    rw [hx, fillOS_fill item.poster_url x h1 h2]
    rfl

end JustMedia

namespace JustMedia

/-- C5: on an exact match with a stale timestamp, the fill-empty-fields
mode populates exactly those non-id fields whose stored value is
empty/null and whose incoming value is non-empty (`updated` iff one
exists, else `skipped`); populated fields are never overwritten; with
the flag off nothing changes. -/
theorem C5_fill_empty_fields (cfg : Config) (st : Store) (md : MappedData) (item : Item)
    (t T : Int)
    (htitle : oStrTruthy md.media_item_data.title = true)
    (hids : anyApiId md.media_item_data = true)
    (hfe : find_exact_match st md.media_item_data = .found item)
    (hm : meta_find st item.pk = some (some T))
    (hU : UniqStore st)
    (hT : ¬ t > T) :
    (cfg.fill_empty_fields = false →
      process_api_item cfg st (some md) t = (st, some item.pk, "skipped")) ∧
    (cfg.fill_empty_fields = true →
      (anyPresent (fills_of item md.media_item_data) = false →
        process_api_item cfg st (some md) t = (st, some item.pk, "skipped")) ∧
      (anyPresent (fills_of item md.media_item_data) = true →
        (process_api_item cfg st (some md) t).2.2 = "updated" ∧
        (process_api_item cfg st (some md) t).2.1 = some item.pk ∧
        (process_api_item cfg st (some md) t).1.meta = st.meta ∧
        ∃ w : Item,
          (process_api_item cfg st (some md) t).1.items = replace_item st.items w ∧
          w.pk = item.pk ∧ (∀ f : IdField, w.getId f = item.getId f) ∧
          w.genres = item.genres ∧ w.countries = item.countries ∧
          (strFalsy item.title = false → w.title = item.title) ∧
          (md.media_item_data.title = none → w.title = item.title) ∧
          (∀ x, md.media_item_data.title = some x → strFalsy x = true → w.title = item.title) ∧
          (∀ x, md.media_item_data.title = some x → strFalsy item.title = true → strFalsy x = false → w.title = x) ∧
          (oStrFalsy item.original_title = false → w.original_title = item.original_title) ∧
          (md.media_item_data.original_title = none → w.original_title = item.original_title) ∧
          (∀ x, md.media_item_data.original_title = some x → strFalsy x = true → w.original_title = item.original_title) ∧
          (∀ x, md.media_item_data.original_title = some x → oStrFalsy item.original_title = true → strFalsy x = false → w.original_title = some x) ∧
          (strFalsy item.media_type = false → w.media_type = item.media_type) ∧
          (md.media_item_data.media_type = none → w.media_type = item.media_type) ∧
          (∀ x, md.media_item_data.media_type = some x → strFalsy x = true → w.media_type = item.media_type) ∧
          (∀ x, md.media_item_data.media_type = some x → strFalsy item.media_type = true → strFalsy x = false → w.media_type = x) ∧
          (oIntFalsy item.release_year = false → w.release_year = item.release_year) ∧
          (md.media_item_data.release_year = none → w.release_year = item.release_year) ∧
          (∀ x, md.media_item_data.release_year = some x → x = 0 → w.release_year = item.release_year) ∧
          (∀ x, md.media_item_data.release_year = some x → oIntFalsy item.release_year = true → x ≠ 0 → w.release_year = some x) ∧
          (oStrFalsy item.description = false → w.description = item.description) ∧
          (md.media_item_data.description = none → w.description = item.description) ∧
          (∀ x, md.media_item_data.description = some x → strFalsy x = true → w.description = item.description) ∧
          (∀ x, md.media_item_data.description = some x → oStrFalsy item.description = true → strFalsy x = false → w.description = some x) ∧
          (oStrFalsy item.poster_url = false → w.poster_url = item.poster_url) ∧
          (md.media_item_data.poster_url = none → w.poster_url = item.poster_url) ∧
          (∀ x, md.media_item_data.poster_url = some x → strFalsy x = true → w.poster_url = item.poster_url) ∧
          (∀ x, md.media_item_data.poster_url = some x → oStrFalsy item.poster_url = true → strFalsy x = false → w.poster_url = some x))) := by
  constructor
  · intro hfill
    rw [process_found cfg st md t item htitle hids hfe]
    rw [update_item_stale_noop cfg st item md.media_item_data md.genres md.countries
      t T hm hT hfill]
  · intro hfill
    have hrw := update_item_fill cfg st item md.media_item_data md.genres md.countries
      t T hm hT hfill (find_exact_match_mem st md.media_item_data item hfe) hU
    constructor
    · intro hA
      rw [process_found cfg st md t item htitle hids hfe, hrw, if_neg (by simp [hA])]
    · intro hA
      rw [process_found cfg st md t item htitle hids hfe, hrw, if_pos (by rw [hA])]
      simp only
      obtain ⟨c1, c2, c3, c4, c5, c6, c7, c8, c9, c10, c11, c12, c13, c14, c15, c16, c17, c18, c19, c20, c21, c22, c23, c24⟩ := apply_fills_fields item md.media_item_data
      exact ⟨by trivial, by trivial, by trivial,
        apply_fills item (fills_of item md.media_item_data),
        rfl, (apply_fills_keeps item (fills_of item md.media_item_data)).1,
        (fun f => (apply_fills_keeps item (fills_of item md.media_item_data)).2 f),
        rfl, rfl, c1, c2, c3, c4, c5, c6, c7, c8, c9, c10, c11, c12, c13, c14, c15, c16, c17, c18, c19, c20, c21, c22, c23, c24⟩

theorem C5_fill_empty_fields_witness :
    (process_api_item ⟨true⟩
      ⟨[⟨0, "Old", none, "movie", none, none, none, some "1", none, none, none, [], []⟩],
       1, [(0, some 5)], [], []⟩
      (some ⟨{ title := some "New", description := some "D",
               kinopoisk_id := some "1" }, [], []⟩) 5).2.2 = "updated" :=
  (((C5_fill_empty_fields ⟨true⟩
    ⟨[⟨0, "Old", none, "movie", none, none, none, some "1", none, none, none, [], []⟩],
     1, [(0, some 5)], [], []⟩
    ⟨{ title := some "New", description := some "D", kinopoisk_id := some "1" }, [], []⟩
    ⟨0, "Old", none, "movie", none, none, none, some "1", none, none, none, [], []⟩
    5 5 (by decide) (by decide) (by decide) (by decide) (by decide) (by decide)).2
    rfl).2 (by decide)).1

end JustMedia

namespace JustMedia

theorem find_append_single {α : Type} (l : List α) (p : α → Bool) (x : α)
    (hl : ∀ a ∈ l, p a = false) (hx : p x = true) :
    (l ++ [x]).find? p = some x := by
  induction l with
  | nil => simp [List.find?, hx]
  | cons a l ih =>
    rw [List.cons_append, List.find?_cons_of_neg _ (by simp [hl a (List.mem_cons_self a l)])]
    exact ih (fun b hb => hl b (List.mem_cons_of_mem a hb))

/-- A fresh pk has no metadata row yet. -/
theorem meta_find_none_of_bound (st : Store) (pk : Nat)
    (h : ∀ p ∈ st.meta, p.1 < pk) : meta_find st pk = none := by
  unfold meta_find
  rw [List.find?_eq_none.mpr]
  · rfl
  · intro x hx
    simp [Nat.ne_of_lt (h x hx)]

/-- Writing the appended row back touches only it. -/
theorem replace_append (l : List Item) (ni w : Item) (hpk : w.pk = ni.pk)
    (hl : ∀ o ∈ l, o.pk ≠ ni.pk) :
    replace_item (l ++ [ni]) w = l ++ [w] := by
  unfold replace_item
  rw [List.map_append]
  congr 1
  · exact (List.map_congr_left
      (fun o ho => if_neg (by rw [hpk]; exact hl o ho))).trans (List.map_id l)
  · simp [hpk]

theorem item_from_data_ids (pk : Nat) (d : ItemData) :
    (item_from_data pk d).pk = pk ∧
    ∀ f : IdField, (item_from_data pk d).getId f = d.getId f :=
  ⟨rfl, fun f => by cases f <;> rfl⟩

/-- A row sharing none of the record's ids fails the exact query. -/
theorem exact_match_pred_false_of_free (d : ItemData) (i : Item)
    (hids : anyApiId d = true)
    (hfree : ∀ f ∈ idFields, d.getId f = none ∨ i.getId f ≠ d.getId f) :
    exact_match_pred d i = false := by
  obtain ⟨f0, hf0, happ⟩ := List.any_eq_true.mp hids
  unfold apiNonEmpty at happ
  unfold exact_match_pred
  rw [List.all_eq_false]
  refine ⟨f0, hf0, ?_⟩
  rcases hfree f0 hf0 with hnone | hne
  · rw [hnone] at happ
    exact absurd happ (by simp [oStrTruthy])
  · simp [hne]

/-- A row sharing none of the record's ids is no subset candidate. -/
theorem candidate_pred_false_of_free (d : ItemData) (i : Item)
    (hfree : ∀ f ∈ idFields, d.getId f = none ∨ i.getId f ≠ d.getId f) :
    candidate_pred d i = false := by
  unfold candidate_pred
  have h1 : (idFields.any fun f => apiNonEmpty d f && (i.getId f == d.getId f)) = false := by
    rw [List.any_eq_false]
    intro f hf
    rcases hfree f hf with hnone | hne
    · unfold apiNonEmpty
      rw [hnone]
      simp [oStrTruthy]
    · simp [hne]
  rw [h1]
  rfl

theorem find_exact_missing (st : Store) (d : ItemData)
    (h : ∀ i ∈ st.items, exact_match_pred d i = false) :
    find_exact_match st d = .missing := by
  unfold find_exact_match
  rw [List.filter_eq_nil.mpr (fun a ha => by simp [h a ha])]

theorem find_subset_none (st : Store) (d : ItemData)
    (h : ∀ i ∈ st.items, candidate_pred d i = false) :
    find_subset_match st d = none := by
  unfold find_subset_match
  by_cases h1 : (!anyApiId d) = true
  · rw [if_pos h1]
  · rw [if_neg h1]
    simp only
    rw [if_pos]
    rw [List.filter_eq_nil.mpr (fun a ha => by simp [h a ha])]
    rfl

/-- A row created from the record has nothing left to fill. -/
theorem fills_of_created_empty (w : Item) (d : ItemData)
    (h1 : w.title = d.title.getD "")
    (h2 : w.original_title = d.original_title)
    (h3 : w.media_type = d.media_type.getD "unknown")
    (h4 : w.release_year = d.release_year)
    (h5 : w.description = d.description)
    (h6 : w.poster_url = d.poster_url) :
    anyPresent (fills_of w d) = false := by
  have e1 : fillS w.title d.title = none := by
    rw [h1]
    cases d.title with
    | none => rfl
    | some x => exact fillS_self x
  have e2 : fillOS w.original_title d.original_title = none := by
    rw [h2]; exact fillOS_self d.original_title
  have e3 : fillS w.media_type d.media_type = none := by
    rw [h3]
    cases d.media_type with
    | none => rfl
    | some x => exact fillS_self x
  have e4 : fillOI w.release_year d.release_year = none := by
    rw [h4]; exact fillOI_self d.release_year
  have e5 : fillOS w.description d.description = none := by
    rw [h5]; exact fillOS_self d.description
  have e6 : fillOS w.poster_url d.poster_url = none := by
    rw [h6]; exact fillOS_self d.poster_url
  unfold anyPresent nonIdPresent fills_of
  simp only
  rw [e1, e2, e3, e4, e5, e6]
  rfl

/-- Evaluation of a successful `_create_item`: the new row is appended
(with its M2M sets applied), and its metadata row carries the API time. -/
theorem create_item_spec (st : Store) (d : ItemData) (gn cn : List String) (t : Int)
    (hval : ids_unique_against st.items (item_from_data st.nextPk d) = true)
    (hmetaB : ∀ p ∈ st.meta, p.1 < st.nextPk)
    (hitemsB : ∀ i ∈ st.items, i.pk < st.nextPk) :
    ∃ st1 w, create_item st d gn cn t = some (st1, st.nextPk) ∧
      st1.items = st.items ++ [w] ∧
      meta_find st1 st.nextPk = some (some t) ∧
      w.pk = st.nextPk ∧ (∀ f : IdField, w.getId f = d.getId f) ∧
      w.title = d.title.getD "" ∧ w.original_title = d.original_title ∧
      w.media_type = d.media_type.getD "unknown" ∧
      w.release_year = d.release_year ∧ w.description = d.description ∧
      w.poster_url = d.poster_url := by
  have hcre : create_item st d gn cn t =
      some (update_metadata
        (update_m2m_relations
          { st with items := st.items ++ [item_from_data st.nextPk d],
                    nextPk := st.nextPk + 1 }
          (item_from_data st.nextPk d) gn cn).1
        (item_from_data st.nextPk d).pk t true, (item_from_data st.nextPk d).pk) := by
    unfold create_item
    simp only
    rw [hval]
    rw [if_neg (by simp)]
  set st0 : Store :=
    { st with items := st.items ++ [item_from_data st.nextPk d],
              nextPk := st.nextPk + 1 } with hst0
  set ni := item_from_data st.nextPk d with hni
  set w := (update_m2m_relations st0 ni gn cn).2.1 with hw
  have hm2m := m2m_facts st0 ni gn cn
  have hmeta0 : meta_find (update_m2m_relations st0 ni gn cn).1 st.nextPk = none := by
    rw [meta_find_congr _ st st.nextPk (hm2m.2.2.2.1)]
    exact meta_find_none_of_bound st st.nextPk hmetaB
  have hitems0 : (update_m2m_relations st0 ni gn cn).1.items = st.items ++ [w] := by
    rw [hm2m.2.2.1]
    have : st0.items = st.items ++ [ni] := rfl
    rw [this]
    exact replace_append st.items ni w (hm2m.1) (fun o ho => Nat.ne_of_lt (hitemsB o ho))
  refine ⟨_, w, hcre, ?_, ?_, ?_, ?_, ?_, ?_, ?_, ?_, ?_, ?_⟩
  · rw [(update_metadata_items _ ni.pk t true).1]
    exact hitems0
  · unfold update_metadata
    rw [show meta_get_or_create (update_m2m_relations st0 ni gn cn).1 ni.pk (some t) =
        ({ (update_m2m_relations st0 ni gn cn).1 with
           meta := (update_m2m_relations st0 ni gn cn).1.meta ++ [(ni.pk, some t)] },
         some t, true) from by
      unfold meta_get_or_create
      rw [show meta_find (update_m2m_relations st0 ni gn cn).1 ni.pk = none from hmeta0]]
    simp only [Bool.not_true, Bool.false_and, Bool.false_eq_true, if_false]
    unfold meta_find
    simp only
    rw [find_append_single _ _ (ni.pk, some t)
      (fun a ha => by
        have := hmetaB a (by
          have hh : (update_m2m_relations st0 ni gn cn).1.meta = st.meta := hm2m.2.2.2.1
          rw [hh] at ha
          exact ha)
        simp [Nat.ne_of_lt this])
      (by simp [hni, item_from_data])]
    rfl
  · exact hm2m.1
  · intro f
    rw [hm2m.2.1 f]
    exact (item_from_data_ids st.nextPk d).2 f
  · exact hm2m.2.2.2.2.1
  · exact hm2m.2.2.2.2.2.1
  · exact hm2m.2.2.2.2.2.2.1
  · exact hm2m.2.2.2.2.2.2.2.1
  · exact hm2m.2.2.2.2.2.2.2.2.1
  · exact hm2m.2.2.2.2.2.2.2.2.2

/-- C1: a record with a usable title and at least one external id, run
twice against a store holding none of its id values, is created then
skipped: the second call returns the same pk, changes nothing, and the
store holds exactly one row matching the record's id combination. -/
theorem C1_idempotent_upsert (cfg : Config) (st : Store) (md : MappedData) (t : Int)
    (htitle : oStrTruthy md.media_item_data.title = true)
    (hids : anyApiId md.media_item_data = true)
    (hfree : ∀ i ∈ st.items, ∀ f ∈ idFields,
      md.media_item_data.getId f = none ∨ i.getId f ≠ md.media_item_data.getId f)
    (hWF : WFStore st) :
    (process_api_item cfg st (some md) t).2.2 = "created" ∧
    (process_api_item cfg st (some md) t).2.1 = some st.nextPk ∧
    ((process_api_item cfg st (some md) t).1.items.filter
        (exact_match_pred md.media_item_data)).length = 1 ∧
    process_api_item cfg (process_api_item cfg st (some md) t).1 (some md) t =
      ((process_api_item cfg st (some md) t).1, some st.nextPk, "skipped") := by
  obtain ⟨hWF1, hWF2, hWF3⟩ := hWF
  have hpredF : ∀ i ∈ st.items, exact_match_pred md.media_item_data i = false :=
    fun i hi => exact_match_pred_false_of_free md.media_item_data i hids (hfree i hi)
  have hmiss : find_exact_match st md.media_item_data = .missing :=
    find_exact_missing st md.media_item_data hpredF
  have hsubn : find_subset_match st md.media_item_data = none :=
    find_subset_none st md.media_item_data
      (fun i hi => candidate_pred_false_of_free md.media_item_data i (hfree i hi))
  have hval : ids_unique_against st.items
      (item_from_data st.nextPk md.media_item_data) = true := by
    apply ids_unique_of_safe
    intro f hf v hv o ho hpk hov
    rw [(item_from_data_ids st.nextPk md.media_item_data).2 f] at hv
    rcases hfree o ho f hf with hnone | hne
    · rw [hnone] at hv
      exact Option.noConfusion hv
    · exact hne (hov.trans hv.symm)
  obtain ⟨st1, w, hcre, hitems1, hmeta1, hwpk, hwids, hwt, hwo, hwm, hwy, hwd, hwp⟩ :=
    create_item_spec st md.media_item_data md.genres md.countries t hval hWF3 hWF1
  have hrun1 : process_api_item cfg st (some md) t = (st1, some st.nextPk, "created") := by
    unfold process_api_item
    simp only [htitle, hids, Bool.not_true, Bool.false_eq_true, if_false]
    rw [hmiss]
    simp only
    rw [hsubn]
    simp only
    rw [hcre]
  have hpW : exact_match_pred md.media_item_data w = true := by
    unfold exact_match_pred
    rw [List.all_eq_true]
    intro f hf
    rw [hwids f]
    simp
  have hfilter : st1.items.filter (exact_match_pred md.media_item_data) = [w] := by
    rw [hitems1, List.filter_append]
    rw [List.filter_eq_nil.mpr (fun a ha => by simp [hpredF a ha])]
    simp [hpW]
  rw [hrun1]
  refine ⟨rfl, rfl, ?_, ?_⟩
  · simp only
    rw [hfilter]
    rfl
  · have hfe2 : find_exact_match st1 md.media_item_data = .found w := by
      unfold find_exact_match
      rw [hfilter]
    have hnoop : update_item cfg st1 w md.media_item_data md.genres md.countries t false =
        some (st1, "skipped") :=
      update_item_noop_fills cfg st1 w md.media_item_data md.genres md.countries t t
        (by rw [hwpk]; exact hmeta1) (lt_irrefl t)
        (fills_of_created_empty w md.media_item_data hwt hwo hwm hwy hwd hwp)
    have hrun2 : process_api_item cfg st1 (some md) t = (st1, some w.pk, "skipped") := by
      unfold process_api_item
      simp only [htitle, hids, Bool.not_true, Bool.false_eq_true, if_false]
      rw [hfe2]
      simp only
      rw [hnoop]
    simp only
    rw [hrun2, hwpk]

theorem C1_idempotent_upsert_witness :
    (process_api_item ⟨false⟩ ⟨[], 0, [], [], []⟩
      (some ⟨{ title := some "X", kinopoisk_id := some "1" }, [], []⟩) 7).2.2 = "created" ∧
    (process_api_item ⟨false⟩ ⟨[], 0, [], [], []⟩
      (some ⟨{ title := some "X", kinopoisk_id := some "1" }, [], []⟩) 7).2.1 = some 0 ∧
    ((process_api_item ⟨false⟩ ⟨[], 0, [], [], []⟩
      (some ⟨{ title := some "X", kinopoisk_id := some "1" }, [], []⟩) 7).1.items.filter
        (exact_match_pred { title := some "X", kinopoisk_id := some "1" })).length = 1 ∧
    process_api_item ⟨false⟩
      (process_api_item ⟨false⟩ ⟨[], 0, [], [], []⟩
        (some ⟨{ title := some "X", kinopoisk_id := some "1" }, [], []⟩) 7).1
      (some ⟨{ title := some "X", kinopoisk_id := some "1" }, [], []⟩) 7 =
      ((process_api_item ⟨false⟩ ⟨[], 0, [], [], []⟩
        (some ⟨{ title := some "X", kinopoisk_id := some "1" }, [], []⟩) 7).1,
       some 0, "skipped") :=
  C1_idempotent_upsert ⟨false⟩ ⟨[], 0, [], [], []⟩
    ⟨{ title := some "X", kinopoisk_id := some "1" }, [], []⟩ 7
    (by decide) (by decide) (by decide) (by decide)

end JustMedia
